import Mathlib

/-!
Subscriptions service: period-overlap cost aggregation.

A shallow embedding of the Go sources

* `pkg/domain/subscription.go`
* `internal/services/subscriptions_service.go`
* `internal/handlers/subscriptions_handler.go`
* `internal/storage/repository/subscriptions_repository.go`
* `internal/dto/subscription_dto.go`

Conventions of the embedding.

* Go `int` and `int64` are 64-bit two's complement; arithmetic that can leave
  that range is reduced with `wrap64`.
* A `time.Time` is represented by its civil fields in UTC (every time value of
  the program is produced in UTC: `time.Parse` without zone, `time.Date(.., time.UTC)`,
  and the date columns of the store).
* A Go result pair `(v, err)` is a Lean pair `(v, Option GoError)`.
* The repository talks to the database through explicit state passing.
-/

namespace Subscriptions

/-! ## Machine integers -/

/-- Two's complement reduction of an integer to the signed 64-bit range. -/
def wrap64 (x : Int) : Int := (x + 2 ^ 63) % 2 ^ 64 - 2 ^ 63

/-- Membership in the range of a signed 64-bit integer. -/
def inInt64 (x : Int) : Prop := -(2 : Int) ^ 63 ≤ x ∧ x < 2 ^ 63

instance (x : Int) : Decidable (inInt64 x) := by
  unfold inInt64; exact inferInstance

/-! ## `time.Time` -/

/-- A `time.Time` in UTC, given by its civil fields; `nsec` counts the
nanoseconds elapsed since midnight. -/
structure Time where
  year : Int
  month : Nat
  day : Nat
  nsec : Nat
deriving DecidableEq

namespace Time

/-- Civil fields of a real time value: month 1..12, day 1..31, time of day
below 24 hours. -/
def Valid (t : Time) : Prop :=
  1 ≤ t.month ∧ t.month ≤ 12 ∧ 1 ≤ t.day ∧ t.day ≤ 31 ∧ t.nsec < 86400000000000

instance (t : Time) : Decidable t.Valid := by
  unfold Valid; exact inferInstance

/-- The lexicographic key of a time value. For civil fields in one zone the
order of instants is the lexicographic order of the fields. -/
def key (t : Time) : ℤ ×ₗ ℕ ×ₗ ℕ ×ₗ ℕ :=
  toLex (t.year, toLex (t.month, toLex (t.day, t.nsec)))

/-- Time values are ordered as instants. -/
instance : LinearOrder Time :=
  LinearOrder.lift' key (by
    intro a b h
    cases a; cases b
    simp only [key, EmbeddingLike.apply_eq_iff_eq, Prod.mk.injEq] at h
    obtain ⟨h1, h2, h3, h4⟩ := h
    subst h1 h2 h3 h4
    rfl)

/-- The method `t.Before(u)`: the instant `t` is strictly earlier than `u`. -/
def Before (t u : Time) : Bool :=
  decide (t.year < u.year) ||
    (decide (t.year = u.year) &&
      (decide (t.month < u.month) ||
        (decide (t.month = u.month) &&
          (decide (t.day < u.day) ||
            (decide (t.day = u.day) && decide (t.nsec < u.nsec))))))

/-- The call `time.Date(year, month, 1, 0, 0, 0, 0, time.UTC)`: the month is normalised
into 1..12, overflowing into the year, as `time.Date` does. -/
def Date (year : Int) (month : Int) : Time :=
  let m := month - 1
  { year := year + m / 12, month := (m % 12 + 1).toNat, day := 1, nsec := 0 }

/-- A calendar month: first day of a month, midnight UTC. -/
def IsCalendarMonth (t : Time) : Prop :=
  1 ≤ t.month ∧ t.month ≤ 12 ∧ t.day = 1 ∧ t.nsec = 0

instance (t : Time) : Decidable t.IsCalendarMonth := by
  unfold IsCalendarMonth; exact inferInstance

end Time

/-! ## Errors -/

/-- A Go `error` value: either created by `errors.New`, or created by
`fmt.Errorf` with a `%w` verb, which keeps the wrapped error. -/
inductive GoError where
  | errorString (msg : String)
  | wrapError (msg : String) (err : GoError)
deriving DecidableEq

namespace GoError

/-- The method `Error()`. -/
def Error : GoError → String
  | errorString msg => msg
  | wrapError msg _ => msg

/-- The function `errors.Unwrap`. -/
def Unwrap : GoError → Option GoError
  | errorString _ => none
  | wrapError _ err => some err

end GoError

/-! ## Domain -/

/-- A `uuid.UUID`; only equality of identifiers is used. -/
structure UUID where
  val : Nat
deriving DecidableEq

/-- The struct `domain.Subscription`. -/
structure Subscription where
  ID : Int
  ServiceName : String
  Price : Int
  UserID : UUID
  StartDate : Time
  EndDate : Option Time
  CreatedAt : Time
  UpdatedAt : Time
deriving DecidableEq

/-! ## Repository interface -/

/-- The interface `repository.ISubscriptionsRepository`, over a store state `σ`
that every method may read and change. -/
structure ISubscriptionsRepository (σ : Type) where
  CreateSubscription : Subscription → σ → (Int × Option GoError) × σ
  GetSubscriptions : σ → (List Subscription × Option GoError) × σ
  GetSubscriptionByID : Int → σ → (Option Subscription × Option GoError) × σ
  UpdateSubscription : Int → Subscription → σ → Option GoError × σ
  DeleteSubscription : Int → σ → Option GoError × σ
  GetSubscriptionsForPeriod :
    Time → Time → Option UUID → Option String → σ → (List Subscription × Option GoError) × σ

/-! ## Service: `SumCost` -/

/-- The function `monthsBetweenInclusive`. Years of a `time.Time` span fewer
than 2^40 values, so this `int` arithmetic stays far inside 64 bits. -/
def monthsBetweenInclusive (a b : Time) : Int :=
  (b.year - a.year) * 12 + ((b.month : Int) - (a.month : Int))

/-- Body of the loop of `SumCost` up to the clamp: the number of months that
multiplies the price of `sub`. -/
def SumCost.months (periodStart periodEnd : Time) (sub : Subscription) : Int :=
  let effStart := sub.StartDate
  let effEnd := periodEnd
  let effEnd :=
    match sub.EndDate with
    | some e => if e.Before periodEnd then e else effEnd
    | none => effEnd
  let effStart := if effStart.Before periodStart then periodStart else effStart
  let effStart := Time.Date effStart.year effStart.month
  let effEnd := Time.Date effEnd.year effEnd.month
  let months := monthsBetweenInclusive effStart effEnd + 1
  if months < 0 then 0 else months

/-- The loop of `SumCost`: `total += int64(sub.Price) * int64(months)`. -/
def SumCost.loop (periodStart periodEnd : Time) (subs : List Subscription) : Int :=
  subs.foldl
    (fun total sub =>
      wrap64 (total + wrap64 (wrap64 sub.Price * wrap64 (SumCost.months periodStart periodEnd sub))))
    0

/-- The method `SubscriptionsService.SumCost`. -/
def SumCost {σ : Type} (repo : ISubscriptionsRepository σ) (periodStart periodEnd : Time)
    (userID : Option UUID) (serviceName : Option String) (st : σ) :
    (Int × Option GoError) × σ :=
  let op := "services.subscriptions_service.SumCost"
  match repo.GetSubscriptionsForPeriod periodStart periodEnd userID serviceName st with
  | ((_, some err), st1) =>
    ((0, some (GoError.wrapError
      ("error getting subs for period: " ++ err.Error ++ ": " ++ op) err)), st1)
  | ((subs, none), st1) => ((SumCost.loop periodStart periodEnd subs, none), st1)

/-! ## The aggregation as the specification words it -/

/-- The spec's `effectiveStart = max(s.startDate, periodStart)`. -/
def effectiveStart (periodStart : Time) (s : Subscription) : Time :=
  max s.StartDate periodStart

/-- The spec's `effectiveEnd = min(s.endDate ?? periodEnd, periodEnd)`. -/
def effectiveEnd (periodEnd : Time) (s : Subscription) : Time :=
  min (s.EndDate.getD periodEnd) periodEnd

/-- The spec's month count
`(effectiveEnd.year - effectiveStart.year) * 12 + (effectiveEnd.month - effectiveStart.month) + 1`. -/
def specMonths (periodStart periodEnd : Time) (s : Subscription) : Int :=
  ((effectiveEnd periodEnd s).year - (effectiveStart periodStart s).year) * 12
    + (((effectiveEnd periodEnd s).month : Int) - ((effectiveStart periodStart s).month : Int)) + 1

/-- The spec's total: the sum over the list of `price * max(0, months)`. -/
def specTotal (periodStart periodEnd : Time) (subs : List Subscription) : Int :=
  (subs.map (fun s => s.Price * max 0 (specMonths periodStart periodEnd s))).sum

/-- A repository whose period query answers with a fixed list of rows and
whose other methods answer with empty results; it keeps no state. -/
def fixedRepo (rows : List Subscription) : ISubscriptionsRepository Unit where
  CreateSubscription := fun _ st => ((0, none), st)
  GetSubscriptions := fun st => ((rows, none), st)
  GetSubscriptionByID := fun _ st => ((none, none), st)
  UpdateSubscription := fun _ _ st => (none, st)
  DeleteSubscription := fun _ st => (none, st)
  GetSubscriptionsForPeriod := fun _ _ _ _ st => ((rows, none), st)

/-- The calendar month `month` of `year`. -/
def ym (year : Int) (month : Nat) : Time :=
  { year := year, month := month, day := 1, nsec := 0 }

/-- A subscription row with the given price and active range. -/
def mkSub (price : Int) (start : Time) (stopDate : Option Time) : Subscription :=
  { ID := 1, ServiceName := "svc", Price := price, UserID := ⟨1⟩,
    StartDate := start, EndDate := stopDate, CreatedAt := start, UpdatedAt := start }

/-- The calendar months in which subscription `s` is active within the period:
the months `m` with `startDate <= m`, `m <= endDate` when an end date is present,
and `periodStart <= m <= periodEnd`. -/
def activeMonths (periodStart periodEnd : Time) (s : Subscription) : Set Time :=
  {m | m.IsCalendarMonth ∧ s.StartDate ≤ m ∧ (∀ e, s.EndDate = some e → m ≤ e) ∧
    periodStart ≤ m ∧ m ≤ periodEnd}

/-- Position of a month on the line of months: `year * 12 + month`. -/
def Time.monthIndex (t : Time) : Int := t.year * 12 + (t.month : Int)

/-! ## `time.Parse` for the two layouts of `parseMonthYear`

The standard library function `time.Parse`, restricted to the layout elements that the
layouts `"01-2006"` and `"2006-01"` consist of. A Go string is read as the list of its
characters; the parser accepts ASCII digits and the hyphen only, so it treats every other
character, of whatever encoded length, alike. The parse error is not inspected by the
caller, so a failed parse is `none`. -/

/-- The layout elements `01` (`stdZeroMonth`) and `2006` (`stdLongYear`). -/
inductive Std where
  | stdZeroMonth
  | stdLongYear
deriving DecidableEq

/-- A layout as the sequence of chunks that `nextStdChunk` cuts it into: each
element with the literal text in front of it. Both layouts end with an element. -/
abbrev Layout := List (List Char × Std)

/-- The layout `"01-2006"`. -/
def layoutMonthYear : Layout := [([], Std.stdZeroMonth), (['-'], Std.stdLongYear)]

/-- The layout `"2006-01"`. -/
def layoutYearMonth : Layout := [([], Std.stdLongYear), (['-'], Std.stdZeroMonth)]

/-- The test `'0' <= c && c <= '9'` of `isDigit`. -/
def isDigitChar (c : Char) : Bool := decide (48 ≤ c.toNat) && decide (c.toNat ≤ 57)

/-- The function `isDigit(s, i)`: position `i` exists and holds a digit. -/
def isDigit (s : List Char) (i : Nat) : Bool :=
  match s.get? i with
  | some c => isDigitChar c
  | none => false

/-- The value `int(c - '0')` of a digit. -/
def digitVal (c : Char) : Int := (c.toNat : Int) - 48

/-- The function `getnum(s, fixed)`: one or two leading digits; with `fixed`,
exactly two are required. -/
def getnum (s : List Char) (fixed : Bool) : Option (Int × List Char) :=
  if !isDigit s 0 then none
  else if !isDigit s 1 then
    if fixed then none
    else match s with
      | c0 :: rest => some (digitVal c0, rest)
      | [] => none
  else match s with
    | c0 :: c1 :: rest => some (digitVal c0 * 10 + digitVal c1, rest)
    | _ => none

/-- The function `leadingInt`: the value of the leading digits and the rest. Its
overflow guard is left out: it is applied to four characters. -/
def leadingInt : List Char → Int → Int × List Char
  | [], x => (x, [])
  | c :: cs, x => if isDigitChar c then leadingInt cs (x * 10 + digitVal c) else (x, c :: cs)

/-- The function `atoi`: an optional sign, then digits up to the end. -/
def atoi (s : List Char) : Option Int :=
  let neg : Bool := match s with
    | c :: _ => decide (c = '-')
    | [] => false
  let s := match s with
    | c :: cs => if c = '-' ∨ c = '+' then cs else c :: cs
    | [] => []
  match leadingInt s 0 with
  | (q, []) => some (if neg = true then -q else q)
  | (_, _ :: _) => none

/-- The function `skip(value, prefix)` for a prefix that holds no space: the
value must start with the prefix. -/
def skip : List Char → List Char → Option (List Char)
  | value, [] => some value
  | [], _ :: _ => none
  | v :: value, p :: pre => if v ≠ p then none else skip value pre

/-- The loop of `time.Parse` over the chunks of the layout, carrying the value
left to read and the year and month read so far (`month = -1`: not set). -/
def Parse.loop : Layout → List Char → Int → Int → Option (Int × Int)
  | [], value, year, month => if value.length ≠ 0 then none else some (year, month)
  | (pre, std) :: layout, value, year, month =>
    match skip value pre with
    | none => none
    | some value =>
      match std with
      | Std.stdZeroMonth =>
        match getnum value true with
        | none => none
        | some (m, value) =>
          if m ≤ 0 ∨ 12 < m then none else Parse.loop layout value year m
      | Std.stdLongYear =>
        if value.length < 4 ∨ !isDigit value 0 then none
        else match atoi (value.take 4) with
          | none => none
          | some y => Parse.loop layout (value.drop 4) y month

/-- The function `time.Parse(layout, value)`: a month that was not read is
January, the day is 1, the time of day is midnight, the zone is UTC. -/
def Parse (layout : Layout) (value : String) : Option Time :=
  match Parse.loop layout value.toList 0 (-1) with
  | none => none
  | some (year, month) =>
    let month := if month < 0 then 1 else month
    some (Time.Date year month)

/-! ## Handler: `parseMonthYear` -/

/-- The zero value `time.Time{}`: January 1 of year 1, midnight UTC. -/
def Time.zero : Time := { year := 1, month := 1, day := 1, nsec := 0 }

/-- The loop of `parseMonthYear` over its layouts. -/
def parseMonthYear.loop (s : String) : List Layout → Time × Option GoError
  | [] => (Time.zero, some (GoError.errorString "invalid format"))
  | l :: layouts =>
    match Parse l s with
    | some t => (Time.Date t.year t.month, none)
    | none => parseMonthYear.loop s layouts

/-- The function `parseMonthYear`. -/
def parseMonthYear (s : String) : Time × Option GoError :=
  parseMonthYear.loop s [layoutMonthYear, layoutYearMonth]

/-! ## The two layouts as the specification words them -/

/-- A string of the form `MM-YYYY`: two digits of a month 01..12, a hyphen, four
digits, and nothing else. -/
def isMonthYearForm (s : String) : Bool :=
  match s.toList with
  | [m1, m2, h, y1, y2, y3, y4] =>
    m1.isDigit && m2.isDigit && h == '-' && y1.isDigit && y2.isDigit && y3.isDigit && y4.isDigit
      && decide (1 ≤ (m1.toNat - 48) * 10 + (m2.toNat - 48))
      && decide ((m1.toNat - 48) * 10 + (m2.toNat - 48) ≤ 12)
  | _ => false

/-- A string of the form `YYYY-MM`: four digits, a hyphen, two digits of a month
01..12, and nothing else. -/
def isYearMonthForm (s : String) : Bool :=
  match s.toList with
  | [y1, y2, y3, y4, h, m1, m2] =>
    y1.isDigit && y2.isDigit && y3.isDigit && y4.isDigit && h == '-' && m1.isDigit && m2.isDigit
      && decide (1 ≤ (m1.toNat - 48) * 10 + (m2.toNat - 48))
      && decide ((m1.toNat - 48) * 10 + (m2.toNat - 48) ≤ 12)
  | _ => false

/-- The decimal digit `n` as a character. -/
def digitChar (n : Nat) : Char := Char.ofNat (48 + n)

/-- A month number in two digits with a leading zero. -/
def render2 (n : Nat) : List Char := [digitChar (n / 10), digitChar (n % 10)]

/-- A year in four digits with leading zeros. -/
def render4 (n : Nat) : List Char :=
  [digitChar (n / 1000), digitChar (n / 100 % 10), digitChar (n / 10 % 10), digitChar (n % 10)]

/-- The canonical rendering `MM-YYYY` of a calendar month. -/
def renderMonthYear (d : Time) : String :=
  String.mk (render2 d.month ++ ['-'] ++ render4 d.year.toNat)

/-- The canonical rendering `YYYY-MM` of a calendar month. -/
def renderYearMonth (d : Time) : String :=
  String.mk (render4 d.year.toNat ++ ['-'] ++ render2 d.month)

/-! ## Service: the write path -/

/-- The predicate `unicode.IsSpace`. -/
def isSpace (c : Char) : Bool :=
  [0x09, 0x0a, 0x0b, 0x0c, 0x0d, 0x20, 0x85, 0xa0, 0x1680, 0x2028, 0x2029, 0x202f, 0x205f,
    0x3000].contains c.toNat || (decide (0x2000 ≤ c.toNat) && decide (c.toNat ≤ 0x200a))

/-- The function `strings.TrimSpace`: leading and trailing white space removed. -/
def TrimSpace (s : String) : String :=
  String.mk ((s.toList.dropWhile isSpace).reverse.dropWhile isSpace).reverse

/-- The method `SubscriptionsService.CreateSubscription`. -/
def CreateSubscription {σ : Type} (repo : ISubscriptionsRepository σ) (sub : Subscription)
    (st : σ) : (Int × Option GoError) × σ :=
  let op := "services.subscriptions_service.CreateSubscription"
  if TrimSpace sub.ServiceName = "" then
    ((-1, some (GoError.errorString ("service_name cannot be empty: " ++ op))), st)
  else if sub.Price < 0 then
    ((-1, some (GoError.errorString ("price must be >= 0: " ++ op))), st)
  else
    match sub.EndDate with
    | some e =>
      if e.Before sub.StartDate then
        ((-1, some (GoError.errorString ("end_date cannot be before start_date: " ++ op))), st)
      else repo.CreateSubscription sub st
    | none => repo.CreateSubscription sub st

/-- The method `SubscriptionsService.GetSubscriptionByID`. -/
def GetSubscriptionByID {σ : Type} (repo : ISubscriptionsRepository σ) (id : Int) (st : σ) :
    (Option Subscription × Option GoError) × σ :=
  repo.GetSubscriptionByID id st

/-- The method `SubscriptionsService.UpdateSubscription`. -/
def UpdateSubscription {σ : Type} (repo : ISubscriptionsRepository σ) (id : Int)
    (sub : Subscription) (st : σ) : Option GoError × σ :=
  if sub.Price < 0 then
    (some (GoError.errorString "price must be >= 0"), st)
  else
    match sub.EndDate with
    | some e =>
      if e.Before sub.StartDate then
        (some (GoError.errorString "end_date cannot be before start_date"), st)
      else repo.UpdateSubscription id sub st
    | none => repo.UpdateSubscription id sub st

/-- A call received by the store. -/
inductive StoreCall where
  | create (sub : Subscription)
  | list
  | get (id : Int)
  | update (id : Int) (sub : Subscription)
  | delete (id : Int)
  | period (periodStart periodEnd : Time) (userID : Option UUID) (serviceName : Option String)
deriving DecidableEq

/-- A repository that records every call it receives and answers with empty
results. -/
def traceRepo : ISubscriptionsRepository (List StoreCall) where
  CreateSubscription := fun sub log => ((1, none), log ++ [StoreCall.create sub])
  GetSubscriptions := fun log => (([], none), log ++ [StoreCall.list])
  GetSubscriptionByID := fun id log => ((none, none), log ++ [StoreCall.get id])
  UpdateSubscription := fun id sub log => (none, log ++ [StoreCall.update id sub])
  DeleteSubscription := fun id log => (none, log ++ [StoreCall.delete id])
  GetSubscriptionsForPeriod := fun ps pe u n log => (([], none), log ++ [StoreCall.period ps pe u n])

/-- A repository whose period query fails with the error `e`. -/
def failingRepo (e : GoError) : ISubscriptionsRepository Unit where
  CreateSubscription := fun _ st => ((-1, some e), st)
  GetSubscriptions := fun st => (([], some e), st)
  GetSubscriptionByID := fun _ st => ((none, some e), st)
  UpdateSubscription := fun _ _ st => (some e, st)
  DeleteSubscription := fun _ st => (some e, st)
  GetSubscriptionsForPeriod := fun _ _ _ _ st => (([], some e), st)

/-- A service name that is empty or consists of white space only. -/
def isBlank (s : String) : Bool := s.toList.all isSpace

/-- The three rules of the write path, as the specification words them, for the
record `sub`: the service name is empty, the price is negative, or the end date
is present and earlier than the start date. -/
def violatesWriteRules (sub : Subscription) : Prop :=
  sub.ServiceName = "" ∨ sub.Price < 0 ∨ ∃ e, sub.EndDate = some e ∧ e < sub.StartDate

/-- A date of the years 0..9999 with valid civil fields. -/
def Time.InCommonEra (t : Time) : Prop := t.Valid ∧ 0 ≤ t.year ∧ t.year ≤ 9999

instance (t : Time) : Decidable t.InCommonEra := by
  unfold Time.InCommonEra; exact inferInstance

/-! ## The database behind the repository

The repository sends SQL text and arguments over a `pgx` connection. The connection and the
server are outside the repository; they are represented by the table `subscriptions`, the
next value of its `id` sequence, the server clock, and an optional failure that every
statement then reports. The server reads a statement as a sequence of tokens separated by
white space and understands the six statements of the repository, the period query with any
sequence of ` AND column = $n` filters behind it. A placeholder `$n` denotes the `n`-th
argument. -/

/-- An argument of a statement. -/
inductive Arg where
  | text (s : String)
  | int (n : Int)
  | uuid (u : UUID)
  | time (t : Time)
  | timeOpt (t : Option Time)
deriving DecidableEq

/-- The connection with the database state it reaches. -/
structure Conn where
  rows : List Subscription
  nextID : Int
  now : Time
  down : Option GoError
deriving DecidableEq

/-- Tokens of a statement, with the token that is being read in reverse. -/
def sqlTokens.go : List Char → List Char → List String
  | [], cur => if cur.isEmpty then [] else [String.mk cur.reverse]
  | c :: cs, cur =>
    if c.isWhitespace then
      if cur.isEmpty then sqlTokens.go cs [] else String.mk cur.reverse :: sqlTokens.go cs []
    else sqlTokens.go cs (c :: cur)

/-- The tokens of a statement: its maximal runs of characters other than white space. -/
def sqlTokens (query : String) : List String := sqlTokens.go query.toList []

/-- The tokens of `SELECT id, ..., updated_at FROM subscriptions`. -/
def sqlSelect : List String :=
  ["SELECT", "id,", "service_name,", "price,", "user_id,", "start_date,", "end_date,",
    "created_at,", "updated_at", "FROM", "subscriptions"]

/-- The tokens of the query by id. -/
def sqlSelectByID : List String := sqlSelect ++ ["WHERE", "id", "=", "$1"]

/-- The tokens of the period query without filters. -/
def sqlSelectPeriod : List String :=
  sqlSelect ++ ["WHERE", "start_date", "<=", "$1", "AND", "(end_date", "IS", "NULL", "OR",
    "end_date", ">=", "$2)"]

/-- The tokens of the insert statement. -/
def sqlInsert : List String :=
  ["INSERT", "INTO", "subscriptions", "(service_name,", "price,", "user_id,", "start_date,",
    "end_date,", "created_at,", "updated_at)", "VALUES", "($1,", "$2,", "$3,", "$4,", "$5,",
    "now(),", "now())", "RETURNING", "id"]

/-- The tokens of the update statement. -/
def sqlUpdate : List String :=
  ["UPDATE", "subscriptions", "SET", "service_name=$1,", "price=$2,", "start_date=$3,",
    "end_date=$4,", "updated_at=now()", "WHERE", "id=$5"]

/-- The tokens of the delete statement. -/
def sqlDelete : List String := ["DELETE", "FROM", "subscriptions", "WHERE", "id", "=", "$1"]

/-- An equality filter behind the period query, with the number of its placeholder. -/
inductive Filter where
  | userID (n : Nat)
  | serviceName (n : Nat)
deriving DecidableEq

/-- The number of a placeholder token `$n`. -/
def sqlPlaceholder (tok : String) : Option Nat :=
  match tok.toList with
  | '$' :: d :: ds =>
    if (d :: ds).all Char.isDigit then
      some ((d :: ds).foldl (fun n c => n * 10 + (c.toNat - 48)) 0)
    else none
  | _ => none

/-- The filters ` AND user_id = $n` and ` AND service_name = $n` in sequence. -/
def sqlFilters : List String → Option (List Filter)
  | [] => some []
  | a :: col :: eq :: ph :: rest =>
    if a = "AND" ∧ eq = "=" then
      match sqlPlaceholder ph, sqlFilters rest with
      | some n, some fs =>
        if col = "user_id" then some (Filter.userID n :: fs)
        else if col = "service_name" then some (Filter.serviceName n :: fs)
        else none
      | _, _ => none
    else none
  | _ => none

/-- A statement of the repository. -/
inductive Stmt where
  | selectAll
  | selectByID
  | selectPeriod (filters : List Filter)
  | insert
  | update
  | delete
deriving DecidableEq

/-- The statement that a text denotes. -/
def sqlParse (query : String) : Option Stmt :=
  let toks := sqlTokens query
  if toks = sqlSelect then some Stmt.selectAll
  else if toks = sqlSelectByID then some Stmt.selectByID
  else if toks = sqlInsert then some Stmt.insert
  else if toks = sqlUpdate then some Stmt.update
  else if toks = sqlDelete then some Stmt.delete
  else if sqlSelectPeriod.isPrefixOf toks then
    match sqlFilters (toks.drop sqlSelectPeriod.length) with
    | some fs => some (Stmt.selectPeriod fs)
    | none => none
  else none

/-- The row test of a filter once its placeholder is bound; `none` when the
placeholder has no argument or one of another type. -/
def Filter.resolve (args : List Arg) : Filter → Option (Subscription → Bool)
  | Filter.userID n =>
    match n, args.get? (n - 1) with
    | _ + 1, some (Arg.uuid u) => some (fun row => decide (row.UserID = u))
    | _, _ => none
  | Filter.serviceName n =>
    match n, args.get? (n - 1) with
    | _ + 1, some (Arg.text s) => some (fun row => decide (row.ServiceName = s))
    | _, _ => none

/-- The row tests of a sequence of filters. -/
def sqlResolve (args : List Arg) : List Filter → Option (List (Subscription → Bool))
  | [] => some []
  | f :: fs =>
    match f.resolve args, sqlResolve args fs with
    | some p, some ps => some (p :: ps)
    | _, _ => none

/-- The error of a statement that the server does not accept. -/
def sqlError : GoError := GoError.errorString "ERROR: statement not accepted"

/-- The method `conn.Query`: the rows that a select statement denotes. -/
def Conn.Query (conn : Conn) (query : String) (args : List Arg) :
    (List Subscription × Option GoError) × Conn :=
  match conn.down with
  | some e => (([], some e), conn)
  | none =>
    match sqlParse query, args with
    | some Stmt.selectAll, [] => ((conn.rows, none), conn)
    | some Stmt.selectByID, [Arg.int id] =>
      ((conn.rows.filter (fun row => decide (row.ID = id)), none), conn)
    | some (Stmt.selectPeriod fs), Arg.time a1 :: Arg.time a2 :: _ =>
      match sqlResolve args fs with
      | some ps =>
        ((conn.rows.filter (fun row =>
          decide (row.StartDate ≤ a1) &&
          (match row.EndDate with
            | none => true
            | some e => decide (e ≥ a2)) &&
          ps.all (fun p => p row)), none), conn)
      | none => (([], some sqlError), conn)
    | _, _ => (([], some sqlError), conn)

/-- The error `pgx.ErrNoRows`. -/
def ErrNoRows : GoError := GoError.errorString "no rows in result set"

/-- The method `conn.QueryRow` followed by `Scan`: the first row of the result, where the
result of `INSERT ... RETURNING id` is read off the inserted row. -/
def Conn.QueryRow (conn : Conn) (query : String) (args : List Arg) :
    (Option Subscription × Option GoError) × Conn :=
  match conn.down with
  | some e => ((none, some e), conn)
  | none =>
    match sqlParse query, args with
    | some Stmt.insert, [Arg.text name, Arg.int price, Arg.uuid user, Arg.time start,
        Arg.timeOpt stopDate] =>
      let row : Subscription :=
        { ID := conn.nextID, ServiceName := name, Price := price, UserID := user,
          StartDate := start, EndDate := stopDate, CreatedAt := conn.now, UpdatedAt := conn.now }
      ((some row, none), { conn with rows := conn.rows ++ [row], nextID := conn.nextID + 1 })
    | _, _ =>
      match conn.Query query args with
      | ((_, some e), conn1) => ((none, some e), conn1)
      | ((row :: _, none), conn1) => ((some row, none), conn1)
      | (([], none), conn1) => ((none, some ErrNoRows), conn1)

/-- The method `conn.Exec`: the update and the delete statement applied to the table. -/
def Conn.Exec (conn : Conn) (query : String) (args : List Arg) : Option GoError × Conn :=
  match conn.down with
  | some e => (some e, conn)
  | none =>
    match sqlParse query, args with
    | some Stmt.update, [Arg.text name, Arg.int price, Arg.time start, Arg.timeOpt stopDate,
        Arg.int id] =>
      let set : Subscription → Subscription := fun row =>
        { row with
          ServiceName := name, Price := price, StartDate := start, EndDate := stopDate,
          UpdatedAt := conn.now }
      (none, { conn with rows := conn.rows.map (fun row => if row.ID = id then set row else row) })
    | some Stmt.delete, [Arg.int id] =>
      (none, { conn with rows := conn.rows.filter (fun row => decide (row.ID ≠ id)) })
    | _, _ => (some sqlError, conn)

/-! ## Repository -/

/-- What `fmt.Sprintf` prints for the verb `%w`, which it does not know: the bad-verb form
`%!w(T=v)`. The type and value text depend on the dynamic type of the error and are
abbreviated to the message of the error. -/
def sprintfBadVerbW (err : GoError) : String := "%!w(" ++ err.Error ++ ")"

namespace SubscriptionsRepository

/-- The method `SubscriptionsRepository.CreateSubscription`. -/
def CreateSubscription (s : Subscription) (conn : Conn) : (Int × Option GoError) × Conn :=
  let op := "storage.repository.subscriptions.CreateSubscription"
  let query := "\nINSERT INTO subscriptions (service_name, price, user_id, start_date, end_date, created_at, updated_at)\nVALUES ($1, $2, $3, $4, $5, now(), now())\nRETURNING id\n"
  match conn.QueryRow query [Arg.text s.ServiceName, Arg.int s.Price, Arg.uuid s.UserID,
      Arg.time s.StartDate, Arg.timeOpt s.EndDate] with
  | ((_, some err), conn1) =>
    ((-1, some (GoError.errorString
      ("error creating subscription: " ++ sprintfBadVerbW err ++ ": " ++ op))), conn1)
  | ((some row, none), conn1) => ((row.ID, none), conn1)
  | ((none, none), conn1) => ((0, none), conn1)

/-- The method `SubscriptionsRepository.GetSubscriptions`. -/
def GetSubscriptions (conn : Conn) : (List Subscription × Option GoError) × Conn :=
  let op := "storage.repository.subscriptions.GetSubscriptions"
  match conn.Query "SELECT id, service_name, price, user_id, start_date, end_date, created_at, updated_at FROM subscriptions" [] with
  | ((_, some err), conn1) =>
    (([], some (GoError.errorString
      ("error getting subscriptions: " ++ sprintfBadVerbW err ++ ": " ++ op))), conn1)
  | ((subs, none), conn1) => ((subs, none), conn1)

/-- The method `SubscriptionsRepository.GetSubscriptionByID`. -/
def GetSubscriptionByID (id : Int) (conn : Conn) :
    (Option Subscription × Option GoError) × Conn :=
  let op := "storage.repository.subscriptions.GetSubscriptionByID"
  match conn.QueryRow "SELECT id, service_name, price, user_id, start_date, end_date, created_at, updated_at FROM subscriptions WHERE id = $1" [Arg.int id] with
  | ((_, some err), conn1) =>
    ((none, some (GoError.errorString
      ("error getting subscription by id: " ++ sprintfBadVerbW err ++ ": " ++ op))), conn1)
  | ((s, none), conn1) => ((s, none), conn1)

/-- The method `SubscriptionsRepository.UpdateSubscription`. -/
def UpdateSubscription (id : Int) (s : Subscription) (conn : Conn) : Option GoError × Conn :=
  let op := "storage.repository.subscriptions.UpdateSubscription"
  match conn.Exec "UPDATE subscriptions SET service_name=$1, price=$2, start_date=$3, end_date=$4, updated_at=now() WHERE id=$5"
      [Arg.text s.ServiceName, Arg.int s.Price, Arg.time s.StartDate, Arg.timeOpt s.EndDate,
        Arg.int id] with
  | (some err, conn1) =>
    (some (GoError.errorString
      ("error updating subscription: " ++ sprintfBadVerbW err ++ ": " ++ op)), conn1)
  | (none, conn1) => (none, conn1)

/-- The method `SubscriptionsRepository.DeleteSubscription`. -/
def DeleteSubscription (id : Int) (conn : Conn) : Option GoError × Conn :=
  let op := "storage.repository.subscriptions.DeleteSubscription"
  match conn.Exec "DELETE FROM subscriptions WHERE id = $1" [Arg.int id] with
  | (some err, conn1) =>
    (some (GoError.errorString
      ("error deleting subscription: " ++ sprintfBadVerbW err ++ ": " ++ op)), conn1)
  | (none, conn1) => (none, conn1)

/-- The text that the statement of `GetSubscriptionsForPeriod` starts with. -/
def GetSubscriptionsForPeriod.text : String :=
  "\n        SELECT id, service_name, price, user_id, start_date, end_date, created_at, updated_at\n        FROM subscriptions\n        WHERE start_date <= $1\n          AND (end_date IS NULL OR end_date >= $2)\n    "

/-- The statement text and the arguments that `GetSubscriptionsForPeriod` builds. -/
def GetSubscriptionsForPeriod.build (periodStart periodEnd : Time) (userID : Option UUID)
    (serviceName : Option String) : String × List Arg :=
  let query := GetSubscriptionsForPeriod.text
  let args := [Arg.time periodEnd, Arg.time periodStart]
  let (query, args) :=
    match userID with
    | some u => (query ++ (" AND user_id = $" ++ toString (args.length + 1)), args ++ [Arg.uuid u])
    | none => (query, args)
  let (query, args) :=
    match serviceName with
    | some n =>
      (query ++ (" AND service_name = $" ++ toString (args.length + 1)), args ++ [Arg.text n])
    | none => (query, args)
  (query, args)

/-- The method `SubscriptionsRepository.GetSubscriptionsForPeriod`. -/
def GetSubscriptionsForPeriod (periodStart periodEnd : Time) (userID : Option UUID)
    (serviceName : Option String) (conn : Conn) : (List Subscription × Option GoError) × Conn :=
  let op := "storage.repository.subscriptions.GetSubscriptionsForPeriod"
  let (query, args) := GetSubscriptionsForPeriod.build periodStart periodEnd userID serviceName
  match conn.Query query args with
  | ((_, some err), conn1) =>
    (([], some (GoError.wrapError (op ++ ": query error: " ++ err.Error) err)), conn1)
  | ((subs, none), conn1) => ((subs, none), conn1)

end SubscriptionsRepository

/-- The repository over the database connection, as `NewSubscriptionsRepository` returns it. -/
def NewSubscriptionsRepository : ISubscriptionsRepository Conn where
  CreateSubscription := SubscriptionsRepository.CreateSubscription
  GetSubscriptions := SubscriptionsRepository.GetSubscriptions
  GetSubscriptionByID := SubscriptionsRepository.GetSubscriptionByID
  UpdateSubscription := SubscriptionsRepository.UpdateSubscription
  DeleteSubscription := SubscriptionsRepository.DeleteSubscription
  GetSubscriptionsForPeriod := SubscriptionsRepository.GetSubscriptionsForPeriod

/-- A property of the value of an optional field, when the field is set, can be decided. -/
instance decidableForallSome {α : Type} (o : Option α) (P : α → Prop) [∀ a, Decidable (P a)] :
    Decidable (∀ a, o = some a → P a) :=
  match o with
  | none => isTrue (fun _ h => Option.noConfusion h)
  | some b => decidable_of_iff (P b)
      ⟨fun h a ha => by cases ha; exact h, fun h => h b rfl⟩

/-- The overlap predicate of the specification with its two optional filters. -/
def selectedForPeriod (periodStart periodEnd : Time) (userID : Option UUID)
    (serviceName : Option String) (s : Subscription) : Prop :=
  s.StartDate ≤ periodEnd ∧ (∀ e, s.EndDate = some e → e ≥ periodStart) ∧
    (∀ u, userID = some u → s.UserID = u) ∧ (∀ n, serviceName = some n → s.ServiceName = n)

instance (periodStart periodEnd : Time) (userID : Option UUID) (serviceName : Option String)
    (s : Subscription) : Decidable (selectedForPeriod periodStart periodEnd userID serviceName s) := by
  unfold selectedForPeriod; exact inferInstance

/-- A connection to a running database that holds the given rows. -/
def connOf (rows : List Subscription) : Conn :=
  { rows := rows, nextID := 100, now := ym 2026 1, down := none }

/-! ## Handler: `Update` -/

/-- The struct `dto.UpdateSubscriptionDTO`: every field is a pointer, `none` when the
request body leaves the field out. -/
structure UpdateSubscriptionDTO where
  ServiceName : Option String
  Price : Option Int
  StartDate : Option String
  EndDate : Option String
  UserID : Option UUID
deriving DecidableEq

/-- A JSON response of the handler: the status code and the one entry of its body. -/
structure Response where
  status : Nat
  key : String
  value : String
deriving DecidableEq

namespace SubscriptionsHandler

/-- The patch of `start_date` in `Update`. -/
def Update.patchStartDate (req : UpdateSubscriptionDTO) (existing : Subscription) :
    Except Response Subscription :=
  match req.StartDate with
  | some v =>
    match parseMonthYear v with
    | (_, some _) => Except.error { status := 400, key := "error", value := "invalid start_date" }
    | (t, none) => Except.ok { existing with StartDate := t }
  | none => Except.ok existing

/-- The patch of `end_date` in `Update`. -/
def Update.patchEndDate (req : UpdateSubscriptionDTO) (existing : Subscription) :
    Except Response Subscription :=
  match req.EndDate with
  | some v =>
    if v = "" then Except.ok { existing with EndDate := none }
    else
      match parseMonthYear v with
      | (_, some _) => Except.error { status := 400, key := "error", value := "invalid end_date" }
      | (t, none) => Except.ok { existing with EndDate := some t }
  | none => Except.ok existing

/-- The method `SubscriptionsHandler.Update`, from the point where the path parameter `id`
and the request body have been read. The handler reaches the repository through the
service. -/
def Update {σ : Type} (repo : ISubscriptionsRepository σ) (id : Int)
    (req : UpdateSubscriptionDTO) (st : σ) : Response × σ :=
  match GetSubscriptionByID repo id st with
  | ((_, some _), st1) => ({ status := 404, key := "error", value := "not found" }, st1)
  | ((none, none), st1) => ({ status := 404, key := "error", value := "not found" }, st1)
  | ((some existing, none), st1) =>
    let existing :=
      match req.ServiceName with
      | some v => { existing with ServiceName := v }
      | none => existing
    let existing :=
      match req.Price with
      | some v => { existing with Price := v }
      | none => existing
    match Update.patchStartDate req existing with
    | Except.error r => (r, st1)
    | Except.ok existing =>
      match Update.patchEndDate req existing with
      | Except.error r => (r, st1)
      | Except.ok existing =>
        match UpdateSubscription repo id existing st1 with
        | (some _, st2) =>
          ({ status := 500, key := "error", value := "error updating subscription" }, st2)
        | (none, st2) => ({ status := 200, key := "message", value := "updated" }, st2)

end SubscriptionsHandler

/-- A patch that sets the owner and leaves every other field out. -/
def patchUserID (u : UUID) : UpdateSubscriptionDTO :=
  { ServiceName := none, Price := none, StartDate := none, EndDate := none, UserID := some u }

/-- The value of `months` in the loop of `SumCost` before the clamp
`if months < 0`: the clipped and normalised range, counted inclusively. -/
def SumCost.monthsBeforeClamp (periodStart periodEnd : Time) (sub : Subscription) : Int :=
  let effStart := sub.StartDate
  let effEnd := periodEnd
  let effEnd :=
    match sub.EndDate with
    | some e => if e.Before periodEnd then e else effEnd
    | none => effEnd
  let effStart := if effStart.Before periodStart then periodStart else effStart
  let effStart := Time.Date effStart.year effStart.month
  let effEnd := Time.Date effEnd.year effEnd.month
  monthsBetweenInclusive effStart effEnd + 1

/-- The calendar months of the query period. -/
def periodMonths (periodStart periodEnd : Time) : Set Time :=
  {m | m.IsCalendarMonth ∧ periodStart ≤ m ∧ m ≤ periodEnd}

/-- The overlap predicate of the store without filters: `startDate <= periodEnd` and
the end date absent or `endDate >= periodStart`. -/
def overlapsPeriod (periodStart periodEnd : Time) (s : Subscription) : Prop :=
  s.StartDate ≤ periodEnd ∧ ∀ e, s.EndDate = some e → e ≥ periodStart

/-! # Theorems -/

/-! ## Arithmetic of `wrap64` -/

theorem wrap64_modEq (x : Int) : wrap64 x ≡ x [ZMOD 2 ^ 64] := by
  unfold wrap64 Int.ModEq
  omega

theorem wrap64_congr {x y : Int} (h : x ≡ y [ZMOD 2 ^ 64]) : wrap64 x = wrap64 y := by
  unfold wrap64
  unfold Int.ModEq at h
  omega

theorem wrap64_of_inInt64 {x : Int} (h : inInt64 x) : wrap64 x = x := by
  unfold inInt64 at h
  unfold wrap64
  omega

theorem wrap64_inInt64 (x : Int) : inInt64 (wrap64 x) := by
  unfold inInt64 wrap64
  omega

theorem wrap64_step (total p m : Int) :
    wrap64 (total + wrap64 (wrap64 p * wrap64 m)) = wrap64 (total + p * m) := by
  apply wrap64_congr
  exact Int.ModEq.add_left _
    ((wrap64_modEq _).trans (Int.ModEq.mul (wrap64_modEq p) (wrap64_modEq m)))

/-! ## Order of time values -/

theorem Time.lt_iff (t u : Time) :
    t < u ↔ t.year < u.year ∨ t.year = u.year ∧
      (t.month < u.month ∨ t.month = u.month ∧
        (t.day < u.day ∨ t.day = u.day ∧ t.nsec < u.nsec)) := by
  show Time.key t < Time.key u ↔ _
  simp [Time.key, Prod.Lex.lt_iff]

theorem Time.Before_iff_lt (t u : Time) : t.Before u = true ↔ t < u := by
  rw [Time.lt_iff]
  simp [Time.Before]

/-! ## The loop of `SumCost` -/

theorem Time.Date_index (y m : Int) :
    (Time.Date y m).year * 12 + ((Time.Date y m).month : Int) = y * 12 + m := by
  simp only [Time.Date]
  have h1 : 0 ≤ (m - 1) % 12 + 1 := by omega
  rw [Int.toNat_of_nonneg h1]
  omega

theorem monthsBetweenInclusive_Date (y m y1 m1 : Int) :
    monthsBetweenInclusive (Time.Date y m) (Time.Date y1 m1) = (y1 - y) * 12 + (m1 - m) := by
  have h := Time.Date_index y m
  have h1 := Time.Date_index y1 m1
  unfold monthsBetweenInclusive
  linarith

theorem effStart_eq_max (periodStart a : Time) :
    (if a.Before periodStart then periodStart else a) = max a periodStart := by
  by_cases h : a.Before periodStart = true
  · rw [if_pos h, max_eq_right (le_of_lt ((Time.Before_iff_lt _ _).1 h))]
  · rw [if_neg h, max_eq_left (not_lt.1 (fun hlt => h ((Time.Before_iff_lt _ _).2 hlt)))]

theorem effEnd_eq_min (periodEnd e : Time) :
    (if e.Before periodEnd then e else periodEnd) = min e periodEnd := by
  by_cases h : e.Before periodEnd = true
  · rw [if_pos h, min_eq_left (le_of_lt ((Time.Before_iff_lt _ _).1 h))]
  · rw [if_neg h, min_eq_right (not_lt.1 (fun hlt => h ((Time.Before_iff_lt _ _).2 hlt)))]

theorem SumCost.months_eq (periodStart periodEnd : Time) (sub : Subscription) :
    SumCost.months periodStart periodEnd sub = max 0 (specMonths periodStart periodEnd sub) := by
  have hE : (match sub.EndDate with
      | some e => if e.Before periodEnd then e else periodEnd
      | none => periodEnd) = effectiveEnd periodEnd sub := by
    unfold effectiveEnd
    cases sub.EndDate with
    | none => simp
    | some e => simpa using effEnd_eq_min periodEnd e
  have hS : (if sub.StartDate.Before periodStart then periodStart else sub.StartDate)
      = effectiveStart periodStart sub := effStart_eq_max periodStart sub.StartDate
  unfold SumCost.months
  simp only [hE, hS, monthsBetweenInclusive_Date]
  unfold specMonths
  split_ifs with h
  · rw [max_eq_left (by omega)]
  · rw [max_eq_right (by omega)]

theorem SumCost.loop_foldl (periodStart periodEnd : Time) (subs : List Subscription) (acc : Int) :
    subs.foldl
      (fun total sub =>
        wrap64 (total + wrap64 (wrap64 sub.Price * wrap64 (SumCost.months periodStart periodEnd sub))))
      (wrap64 acc) = wrap64 (acc + specTotal periodStart periodEnd subs) := by
  induction subs generalizing acc with
  | nil => simp [specTotal]
  | cons s rest ih =>
    simp only [List.foldl_cons, wrap64_step] at ih ⊢
    have h : wrap64 (wrap64 acc + s.Price * SumCost.months periodStart periodEnd s)
        = wrap64 (acc + s.Price * SumCost.months periodStart periodEnd s) :=
      wrap64_congr (Int.ModEq.add_right _ (wrap64_modEq acc))
    rw [h, ih, SumCost.months_eq]
    simp only [specTotal, List.map_cons, List.sum_cons]
    congr 1
    ring

theorem SumCost.loop_eq (periodStart periodEnd : Time) (subs : List Subscription) :
    SumCost.loop periodStart periodEnd subs = wrap64 (specTotal periodStart periodEnd subs) := by
  have h := SumCost.loop_foldl periodStart periodEnd subs 0
  have h0 : wrap64 0 = 0 := by decide
  rw [h0, zero_add] at h
  exact h

theorem SumCost_ok {σ : Type} (repo : ISubscriptionsRepository σ) (periodStart periodEnd : Time)
    (userID : Option UUID) (serviceName : Option String) (st st1 : σ) (subs : List Subscription)
    (h : repo.GetSubscriptionsForPeriod periodStart periodEnd userID serviceName st
      = ((subs, none), st1)) :
    SumCost repo periodStart periodEnd userID serviceName st
      = ((wrap64 (specTotal periodStart periodEnd subs), none), st1) := by
  unfold SumCost
  simp only [h, SumCost.loop_eq]

/-! ## C1: the total returned by `SumCost` -/

/-- C1 (as stated, refuted): the claim that `SumCost` returns the exact sum of
`price * max(0, months)` for every fetched list fails under 64-bit arithmetic. One open-ended
subscription of price 2^62 starting 2025-01, queried over 2025-01..2025-04, is charged four
months; the exact sum is 2^64, while `SumCost` returns `0` with no error. -/
theorem C1_exact_total_refuted :
    (fixedRepo [mkSub 4611686018427387904 (ym 2025 1) none]).GetSubscriptionsForPeriod
        (ym 2025 1) (ym 2025 4) none none ()
      = (([mkSub 4611686018427387904 (ym 2025 1) none], none), ()) ∧
    specTotal (ym 2025 1) (ym 2025 4) [mkSub 4611686018427387904 (ym 2025 1) none]
      = 18446744073709551616 ∧
    SumCost (fixedRepo [mkSub 4611686018427387904 (ym 2025 1) none])
        (ym 2025 1) (ym 2025 4) none none ()
      = ((0, none), ()) := by
  refine ⟨rfl, ?_, ?_⟩
  · decide
  · rw [SumCost_ok _ _ _ _ _ _ _ _ rfl]
    decide

/-- C1 (amended): for every `periodStart` and `periodEnd`, in either order, and every list
`subs` returned by a successful store fetch, `SumCost` returns no error and a total equal to
the sum over `subs` of `price * max(0, months)` reduced to a signed 64-bit integer, with
`effectiveStart`, `effectiveEnd` and `months` as in the specification; the total is that
sum itself whenever the sum fits in 64 bits, and it is `0` for the empty list. -/
theorem C1_sumCost_total {σ : Type} (repo : ISubscriptionsRepository σ)
    (periodStart periodEnd : Time) (userID : Option UUID) (serviceName : Option String)
    (st st1 : σ) (subs : List Subscription)
    (hfetch : repo.GetSubscriptionsForPeriod periodStart periodEnd userID serviceName st
      = ((subs, none), st1)) :
    SumCost repo periodStart periodEnd userID serviceName st
        = ((wrap64 (specTotal periodStart periodEnd subs), none), st1) ∧
      (inInt64 (specTotal periodStart periodEnd subs) →
        SumCost repo periodStart periodEnd userID serviceName st
          = ((specTotal periodStart periodEnd subs, none), st1)) ∧
      (subs = [] →
        SumCost repo periodStart periodEnd userID serviceName st = ((0, none), st1)) := by
  have h := SumCost_ok repo periodStart periodEnd userID serviceName st st1 subs hfetch
  refine ⟨h, ?_, ?_⟩
  · intro hr
    rw [h, wrap64_of_inInt64 hr]
  · intro he
    subst he
    rw [h]
    rfl

/-- C1 (amended), at a concrete input: a subscription 2024-06..2025-12 of price 100 queried
over 2025-01..2025-03 totals 300. -/
theorem C1_sumCost_total_witness :
    SumCost (fixedRepo [mkSub 100 (ym 2024 6) (some (ym 2025 12))])
        (ym 2025 1) (ym 2025 3) none none ()
      = ((300, none), ()) :=
  (C1_sumCost_total (fixedRepo [mkSub 100 (ym 2024 6) (some (ym 2025 12))])
    (ym 2025 1) (ym 2025 3) none none () () _ rfl).2.1 (by decide)

/-! ## C2: the month count is the number of active calendar months -/

theorem Time.calendar_le_iff {a b : Time} (ha : a.IsCalendarMonth) (hb : b.IsCalendarMonth) :
    a ≤ b ↔ a.monthIndex ≤ b.monthIndex := by
  obtain ⟨ha1, ha2, ha3, ha4⟩ := ha
  obtain ⟨hb1, hb2, hb3, hb4⟩ := hb
  rw [← not_lt, Time.lt_iff]
  unfold Time.monthIndex
  constructor
  · intro h
    omega
  · intro h
    omega

theorem Time.Date_isCalendarMonth (y m : Int) : (Time.Date y m).IsCalendarMonth := by
  unfold Time.IsCalendarMonth Time.Date
  simp only [and_self, and_true]
  omega

theorem Time.Date_monthIndex (y m : Int) : (Time.Date y m).monthIndex = y * 12 + m :=
  Time.Date_index y m

theorem Time.Date_of_calendar {t : Time} (h : t.IsCalendarMonth) :
    Time.Date 0 t.monthIndex = t := by
  obtain ⟨h1, h2, h3, h4⟩ := h
  cases t with
  | mk y m d n =>
    simp only at h1 h2 h3 h4
    subst h3 h4
    simp only [Time.Date, Time.monthIndex, Time.mk.injEq, and_true]
    constructor <;> omega

theorem Time.monthIndex_max {a b : Time} (ha : a.IsCalendarMonth) (hb : b.IsCalendarMonth) :
    (max a b).monthIndex = max a.monthIndex b.monthIndex := by
  rcases le_total a b with h | h
  · rw [max_eq_right h, max_eq_right ((Time.calendar_le_iff ha hb).1 h)]
  · rw [max_eq_left h, max_eq_left ((Time.calendar_le_iff hb ha).1 h)]

theorem Time.monthIndex_min {a b : Time} (ha : a.IsCalendarMonth) (hb : b.IsCalendarMonth) :
    (min a b).monthIndex = min a.monthIndex b.monthIndex := by
  rcases le_total a b with h | h
  · rw [min_eq_left h, min_eq_left ((Time.calendar_le_iff ha hb).1 h)]
  · rw [min_eq_right h, min_eq_right ((Time.calendar_le_iff hb ha).1 h)]

theorem specMonths_eq_index (periodStart periodEnd : Time) (s : Subscription) :
    specMonths periodStart periodEnd s
      = (effectiveEnd periodEnd s).monthIndex - (effectiveStart periodStart s).monthIndex + 1 := by
  unfold specMonths Time.monthIndex
  ring

/-- The months between two positions, as a set of calendar months. -/
theorem ncard_months_between (lo hi : Int) :
    ({m : Time | m.IsCalendarMonth ∧ lo ≤ m.monthIndex ∧ m.monthIndex ≤ hi}.ncard : Int)
      = max 0 (hi - lo + 1) := by
  have himg : {m : Time | m.IsCalendarMonth ∧ lo ≤ m.monthIndex ∧ m.monthIndex ≤ hi}
      = (fun i : Int => Time.Date 0 i) '' (↑(Finset.Icc lo hi) : Set Int) := by
    ext m
    simp only [Set.mem_setOf_eq, Set.mem_image, Finset.coe_Icc, Set.mem_Icc]
    constructor
    · rintro ⟨hc, h1, h2⟩
      exact ⟨m.monthIndex, ⟨h1, h2⟩, Time.Date_of_calendar hc⟩
    · rintro ⟨i, ⟨h1, h2⟩, rfl⟩
      refine ⟨Time.Date_isCalendarMonth 0 i, ?_, ?_⟩ <;>
        rw [Time.Date_monthIndex] <;> omega
  have hinj : Function.Injective (fun i : Int => Time.Date 0 i) := by
    intro i j hij
    have h := congrArg Time.monthIndex hij
    simp only [Time.Date_monthIndex] at h
    omega
  rw [himg, Set.ncard_image_of_injective _ hinj, Set.ncard_coe_Finset, Int.card_Icc]
  omega

theorem activeMonths_eq (periodStart periodEnd : Time) (s : Subscription)
    (hps : periodStart.IsCalendarMonth) (hpe : periodEnd.IsCalendarMonth)
    (hs : s.StartDate.IsCalendarMonth) (he : ∀ e, s.EndDate = some e → e.IsCalendarMonth) :
    activeMonths periodStart periodEnd s
      = {m : Time | m.IsCalendarMonth ∧
          (effectiveStart periodStart s).monthIndex ≤ m.monthIndex ∧
          m.monthIndex ≤ (effectiveEnd periodEnd s).monthIndex} := by
  have hd : (s.EndDate.getD periodEnd).IsCalendarMonth := by
    cases hE : s.EndDate with
    | none => simpa using hpe
    | some e => simpa using he e hE
  unfold activeMonths effectiveStart effectiveEnd
  rw [Time.monthIndex_max hs hps, Time.monthIndex_min hd hpe]
  ext m
  simp only [Set.mem_setOf_eq]
  constructor
  · rintro ⟨hm, h1, h2, h3, h4⟩
    refine ⟨hm, ?_, ?_⟩
    · exact max_le ((Time.calendar_le_iff hs hm).1 h1) ((Time.calendar_le_iff hps hm).1 h3)
    · refine le_min ?_ ((Time.calendar_le_iff hm hpe).1 h4)
      cases hE : s.EndDate with
      | none => simpa using (Time.calendar_le_iff hm hpe).1 h4
      | some e => simpa using (Time.calendar_le_iff hm (he e hE)).1 (h2 e hE)
  · rintro ⟨hm, h1, h2⟩
    have h3 := le_min_iff.1 h2
    have h4 := max_le_iff.1 h1
    refine ⟨hm, (Time.calendar_le_iff hs hm).2 h4.1, ?_, (Time.calendar_le_iff hps hm).2 h4.2,
      (Time.calendar_le_iff hm hpe).2 h3.2⟩
    intro e hE
    have h5 := h3.1
    rw [hE] at h5
    exact (Time.calendar_le_iff hm (he e hE)).2 (by simpa using h5)

/-- C2: for first-of-month subscription dates and first-of-month period boundaries, in either
order, the number of months by which `SumCost` multiplies the price (after clipping, the `+1`
and the clamp) is the number of calendar months `m` with `startDate <= m`, `m <= endDate`
when an end date is present, and `periodStart <= m <= periodEnd`. The three scenarios of the
specification give 300, 300 and 0. -/
theorem C2_months_count_active_months :
    (∀ (periodStart periodEnd : Time) (s : Subscription),
      periodStart.IsCalendarMonth → periodEnd.IsCalendarMonth →
      s.StartDate.IsCalendarMonth → (∀ e, s.EndDate = some e → e.IsCalendarMonth) →
      SumCost.months periodStart periodEnd s
        = ((activeMonths periodStart periodEnd s).ncard : Int)) ∧
    SumCost (fixedRepo [mkSub 100 (ym 2024 6) (some (ym 2025 12))])
        (ym 2025 1) (ym 2025 3) none none () = ((300, none), ()) ∧
    SumCost (fixedRepo [mkSub 50 (ym 2025 1) none])
        (ym 2025 1) (ym 2025 6) none none () = ((300, none), ()) ∧
    SumCost (fixedRepo [mkSub 100 (ym 2024 1) (some (ym 2024 6))])
        (ym 2025 1) (ym 2025 3) none none () = ((0, none), ()) := by
  refine ⟨?_, by decide, by decide, by decide⟩
  intro periodStart periodEnd s hps hpe hs he
  rw [SumCost.months_eq, activeMonths_eq periodStart periodEnd s hps hpe hs he,
    ncard_months_between, specMonths_eq_index]

/-- C2 at a concrete input: subscription 2024-06..2025-12 within 2025-01..2025-03 is active in
exactly three calendar months. -/
theorem C2_months_count_active_months_witness :
    SumCost.months (ym 2025 1) (ym 2025 3) (mkSub 100 (ym 2024 6) (some (ym 2025 12))) = 3 ∧
    ((activeMonths (ym 2025 1) (ym 2025 3) (mkSub 100 (ym 2024 6) (some (ym 2025 12)))).ncard
      : Int) = 3 := by
  have h := C2_months_count_active_months.1 (ym 2025 1) (ym 2025 3)
    (mkSub 100 (ym 2024 6) (some (ym 2025 12))) (by decide) (by decide) (by decide)
    (by intro e he; cases he; decide)
  have h3 : SumCost.months (ym 2025 1) (ym 2025 3) (mkSub 100 (ym 2024 6) (some (ym 2025 12)))
      = 3 := by decide
  exact ⟨h3, by rw [← h, h3]⟩

/-! ## C3: the two layouts of `parseMonthYear` -/

theorem isDigitChar_eq (c : Char) : isDigitChar c = c.isDigit := by
  unfold isDigitChar Char.isDigit
  rw [Bool.eq_iff_iff]
  simp only [Bool.and_eq_true, decide_eq_true_eq, ge_iff_le]
  rw [UInt32.le_def, UInt32.le_def]
  rfl

theorem getnum_fixed_cons2 (c0 c1 : Char) (rest : List Char) :
    getnum (c0 :: c1 :: rest) true
      = if isDigitChar c0 = true ∧ isDigitChar c1 = true
        then some (digitVal c0 * 10 + digitVal c1, rest) else none := by
  unfold getnum
  cases h0 : isDigitChar c0 <;> cases h1 : isDigitChar c1 <;> simp [isDigit, h0, h1]

theorem getnum_fixed_short (s : List Char) (h : s.length < 2) : getnum s true = none := by
  unfold getnum
  match s, h with
  | [], _ => simp [isDigit]
  | [c], _ => cases h0 : isDigitChar c <;> simp [isDigit, h0]

theorem isDigitChar_not_sign {c : Char} (h : isDigitChar c = true) : ¬ (c = '-' ∨ c = '+') := by
  unfold isDigitChar at h
  simp only [Bool.and_eq_true, decide_eq_true_eq] at h
  rintro (rfl | rfl)
  · exact absurd h.1 (by decide)
  · exact absurd h.1 (by decide)

theorem atoi_four (y1 y2 y3 y4 : Char) (h1 : isDigitChar y1 = true) :
    atoi [y1, y2, y3, y4]
      = if isDigitChar y2 = true ∧ isDigitChar y3 = true ∧ isDigitChar y4 = true
        then some (((digitVal y1 * 10 + digitVal y2) * 10 + digitVal y3) * 10 + digitVal y4)
        else none := by
  have hs := isDigitChar_not_sign h1
  have hneg : y1 ≠ '-' := fun h => hs (Or.inl h)
  have hpos : y1 ≠ '+' := fun h => hs (Or.inr h)
  unfold atoi
  cases h2 : isDigitChar y2 <;> cases h3 : isDigitChar y3 <;> cases h4 : isDigitChar y4 <;>
    simp [leadingInt, h1, h2, h3, h4, hneg, hpos]

/-- The year element applied to a value of at least four characters. -/
theorem Parse_loop_year_cons4 (layout : Layout) (pre : List Char) (value : List Char)
    (y1 y2 y3 y4 : Char) (rest : List Char) (year month : Int)
    (hskip : skip value pre = some (y1 :: y2 :: y3 :: y4 :: rest)) :
    Parse.loop ((pre, Std.stdLongYear) :: layout) value year month
      = if isDigitChar y1 = true ∧ isDigitChar y2 = true ∧ isDigitChar y3 = true
          ∧ isDigitChar y4 = true
        then Parse.loop layout rest
          (((digitVal y1 * 10 + digitVal y2) * 10 + digitVal y3) * 10 + digitVal y4) month
        else none := by
  rw [Parse.loop]
  simp only [hskip]
  cases h1 : isDigitChar y1
  · simp [isDigit, h1]
  · simp only [isDigit, List.get?_cons_zero, h1, List.length_cons, List.take_succ_cons,
      List.take_zero, atoi_four y1 y2 y3 y4 h1, List.drop_succ_cons, List.drop_zero, true_and]
    have hlen : ¬ (rest.length + 1 + 1 + 1 + 1 < 4 ∨ (!true) = true) := by simp
    rw [if_neg hlen]
    split_ifs <;> rfl

/-- The year element applied to a value of fewer than four characters. -/
theorem Parse_loop_year_short (layout : Layout) (pre : List Char) (value v : List Char)
    (year month : Int) (hskip : skip value pre = some v) (hv : v.length < 4) :
    Parse.loop ((pre, Std.stdLongYear) :: layout) value year month = none := by
  unfold Parse.loop
  simp [hskip, hv]

/-- The month element applied to a value of at least two characters. -/
theorem Parse_loop_month_cons2 (layout : Layout) (pre : List Char) (value : List Char)
    (m1 m2 : Char) (rest : List Char) (year month : Int)
    (hskip : skip value pre = some (m1 :: m2 :: rest)) :
    Parse.loop ((pre, Std.stdZeroMonth) :: layout) value year month
      = if isDigitChar m1 = true ∧ isDigitChar m2 = true
          ∧ 1 ≤ digitVal m1 * 10 + digitVal m2 ∧ digitVal m1 * 10 + digitVal m2 ≤ 12
        then Parse.loop layout rest year (digitVal m1 * 10 + digitVal m2)
        else none := by
  rw [Parse.loop]
  simp only [hskip, getnum_fixed_cons2]
  by_cases h : isDigitChar m1 = true ∧ isDigitChar m2 = true
  · simp only [h, and_self, if_true, true_and]
    by_cases h2 : digitVal m1 * 10 + digitVal m2 ≤ 0 ∨ 12 < digitVal m1 * 10 + digitVal m2
    · rw [if_pos h2, if_neg (by omega)]
    · rw [if_neg h2, if_pos (by omega)]
  · rw [if_neg h, if_neg (fun hh => h ⟨hh.1, hh.2.1⟩)]

/-- The month element applied to a value of fewer than two characters. -/
theorem Parse_loop_month_short (layout : Layout) (pre : List Char) (value v : List Char)
    (year month : Int) (hskip : skip value pre = some v) (hv : v.length < 2) :
    Parse.loop ((pre, Std.stdZeroMonth) :: layout) value year month = none := by
  unfold Parse.loop
  simp [hskip, getnum_fixed_short v hv]

theorem Parse_loop_skip_none (layout : Layout) (pre : List Char) (std : Std) (value : List Char)
    (year month : Int) (hskip : skip value pre = none) :
    Parse.loop ((pre, std) :: layout) value year month = none := by
  unfold Parse.loop
  simp [hskip]

theorem skip_nil (value : List Char) : skip value [] = some value := by
  cases value <;> rfl

theorem skip_hyphen (value : List Char) :
    skip value ['-'] = match value with
      | c :: rest => if c = '-' then some rest else none
      | [] => none := by
  cases value with
  | nil => rfl
  | cons c rest =>
    by_cases h : c = '-'
    · subst h; simp [skip, skip_nil]
    · simp [skip, h]

theorem Parse_loop_nil (value : List Char) (year month : Int) :
    Parse.loop [] value year month = if value = [] then some (year, month) else none := by
  rw [Parse.loop]
  cases value <;> simp

theorem skip_hyphen_cons (rest : List Char) : skip ('-' :: rest) ['-'] = some rest := by
  simp [skip_hyphen]

theorem skip_hyphen_ne (c : Char) (rest : List Char) (h : c ≠ '-') :
    skip (c :: rest) ['-'] = none := by
  simp [skip_hyphen, h]

/-- What `time.Parse` reads with the layout `"01-2006"`. -/
theorem Parse_loop_monthYear_iff (cs : List Char) (y m : Int) :
    Parse.loop layoutMonthYear cs 0 (-1) = some (y, m) ↔
      ∃ m1 m2 y1 y2 y3 y4 : Char, cs = [m1, m2, '-', y1, y2, y3, y4] ∧
        (isDigitChar m1 = true ∧ isDigitChar m2 = true
          ∧ 1 ≤ digitVal m1 * 10 + digitVal m2 ∧ digitVal m1 * 10 + digitVal m2 ≤ 12) ∧
        (isDigitChar y1 = true ∧ isDigitChar y2 = true ∧ isDigitChar y3 = true
          ∧ isDigitChar y4 = true) ∧
        m = digitVal m1 * 10 + digitVal m2 ∧
        y = ((digitVal y1 * 10 + digitVal y2) * 10 + digitVal y3) * 10 + digitVal y4 := by
  unfold layoutMonthYear
  constructor
  · intro h
    match cs with
    | [] => rw [Parse_loop_month_short _ _ _ _ _ _ (skip_nil _) (by simp)] at h; cases h
    | [_] => rw [Parse_loop_month_short _ _ _ _ _ _ (skip_nil _) (by simp)] at h; cases h
    | m1 :: m2 :: rest =>
      rw [Parse_loop_month_cons2 _ _ _ _ _ _ _ _ (skip_nil _)] at h
      by_cases hm : isDigitChar m1 = true ∧ isDigitChar m2 = true
          ∧ 1 ≤ digitVal m1 * 10 + digitVal m2 ∧ digitVal m1 * 10 + digitVal m2 ≤ 12
      swap
      · rw [if_neg hm] at h; cases h
      rw [if_pos hm] at h
      match rest with
      | [] =>
        rw [Parse_loop_skip_none _ _ _ _ _ _ (show skip [] ['-'] = none from rfl)] at h
        cases h
      | c :: rest1 =>
        by_cases hc : c = '-'
        swap
        · rw [Parse_loop_skip_none _ _ _ _ _ _ (skip_hyphen_ne c rest1 hc)] at h; cases h
        subst hc
        match rest1 with
        | [] =>
          rw [Parse_loop_year_short _ _ _ _ _ _ (skip_hyphen_cons _) (by simp)] at h; cases h
        | [_] =>
          rw [Parse_loop_year_short _ _ _ _ _ _ (skip_hyphen_cons _) (by simp)] at h; cases h
        | [_, _] =>
          rw [Parse_loop_year_short _ _ _ _ _ _ (skip_hyphen_cons _) (by simp)] at h; cases h
        | [_, _, _] =>
          rw [Parse_loop_year_short _ _ _ _ _ _ (skip_hyphen_cons _) (by simp)] at h; cases h
        | y1 :: y2 :: y3 :: y4 :: rest2 =>
          rw [Parse_loop_year_cons4 _ _ _ _ _ _ _ _ _ _ (skip_hyphen_cons _)] at h
          by_cases hy : isDigitChar y1 = true ∧ isDigitChar y2 = true ∧ isDigitChar y3 = true
              ∧ isDigitChar y4 = true
          swap
          · rw [if_neg hy] at h; cases h
          rw [if_pos hy, Parse_loop_nil] at h
          by_cases hr : rest2 = []
          swap
          · rw [if_neg hr] at h; cases h
          subst hr
          rw [if_pos rfl] at h
          simp only [Option.some.injEq, Prod.mk.injEq] at h
          exact ⟨m1, m2, y1, y2, y3, y4, rfl, hm, hy, h.2.symm, h.1.symm⟩
  · rintro ⟨m1, m2, y1, y2, y3, y4, rfl, hm, hy, rfl, rfl⟩
    rw [Parse_loop_month_cons2 _ _ _ _ _ _ _ _ (skip_nil _), if_pos hm,
      Parse_loop_year_cons4 _ _ _ _ _ _ _ _ _ _ (skip_hyphen_cons _), if_pos hy,
      Parse_loop_nil, if_pos rfl]

/-- What `time.Parse` reads with the layout `"2006-01"`. -/
theorem Parse_loop_yearMonth_iff (cs : List Char) (y m : Int) :
    Parse.loop layoutYearMonth cs 0 (-1) = some (y, m) ↔
      ∃ y1 y2 y3 y4 m1 m2 : Char, cs = [y1, y2, y3, y4, '-', m1, m2] ∧
        (isDigitChar m1 = true ∧ isDigitChar m2 = true
          ∧ 1 ≤ digitVal m1 * 10 + digitVal m2 ∧ digitVal m1 * 10 + digitVal m2 ≤ 12) ∧
        (isDigitChar y1 = true ∧ isDigitChar y2 = true ∧ isDigitChar y3 = true
          ∧ isDigitChar y4 = true) ∧
        m = digitVal m1 * 10 + digitVal m2 ∧
        y = ((digitVal y1 * 10 + digitVal y2) * 10 + digitVal y3) * 10 + digitVal y4 := by
  unfold layoutYearMonth
  constructor
  · intro h
    match cs with
    | [] => rw [Parse_loop_year_short _ _ _ _ _ _ (skip_nil _) (by simp)] at h; cases h
    | [_] => rw [Parse_loop_year_short _ _ _ _ _ _ (skip_nil _) (by simp)] at h; cases h
    | [_, _] => rw [Parse_loop_year_short _ _ _ _ _ _ (skip_nil _) (by simp)] at h; cases h
    | [_, _, _] => rw [Parse_loop_year_short _ _ _ _ _ _ (skip_nil _) (by simp)] at h; cases h
    | y1 :: y2 :: y3 :: y4 :: rest =>
      rw [Parse_loop_year_cons4 _ _ _ _ _ _ _ _ _ _ (skip_nil _)] at h
      by_cases hy : isDigitChar y1 = true ∧ isDigitChar y2 = true ∧ isDigitChar y3 = true
          ∧ isDigitChar y4 = true
      swap
      · rw [if_neg hy] at h; cases h
      rw [if_pos hy] at h
      match rest with
      | [] =>
        rw [Parse_loop_skip_none _ _ _ _ _ _ (show skip [] ['-'] = none from rfl)] at h
        cases h
      | c :: rest1 =>
        by_cases hc : c = '-'
        swap
        · rw [Parse_loop_skip_none _ _ _ _ _ _ (skip_hyphen_ne c rest1 hc)] at h; cases h
        subst hc
        match rest1 with
        | [] =>
          rw [Parse_loop_month_short _ _ _ _ _ _ (skip_hyphen_cons _) (by simp)] at h; cases h
        | [_] =>
          rw [Parse_loop_month_short _ _ _ _ _ _ (skip_hyphen_cons _) (by simp)] at h; cases h
        | m1 :: m2 :: rest2 =>
          rw [Parse_loop_month_cons2 _ _ _ _ _ _ _ _ (skip_hyphen_cons _)] at h
          by_cases hm : isDigitChar m1 = true ∧ isDigitChar m2 = true
              ∧ 1 ≤ digitVal m1 * 10 + digitVal m2 ∧ digitVal m1 * 10 + digitVal m2 ≤ 12
          swap
          · rw [if_neg hm] at h; cases h
          rw [if_pos hm, Parse_loop_nil] at h
          by_cases hr : rest2 = []
          swap
          · rw [if_neg hr] at h; cases h
          subst hr
          rw [if_pos rfl] at h
          simp only [Option.some.injEq, Prod.mk.injEq] at h
          exact ⟨y1, y2, y3, y4, m1, m2, rfl, hm, hy, h.2.symm, h.1.symm⟩
  · rintro ⟨y1, y2, y3, y4, m1, m2, rfl, hm, hy, rfl, rfl⟩
    rw [Parse_loop_year_cons4 _ _ _ _ _ _ _ _ _ _ (skip_nil _), if_pos hy,
      Parse_loop_month_cons2 _ _ _ _ _ _ _ _ (skip_hyphen_cons _), if_pos hm,
      Parse_loop_nil, if_pos rfl]

theorem digitVal_of_isDigitChar {c : Char} (h : isDigitChar c = true) :
    digitVal c = ((c.toNat - 48 : Nat) : Int) ∧ 0 ≤ digitVal c ∧ digitVal c ≤ 9 := by
  unfold isDigitChar at h
  simp only [Bool.and_eq_true, decide_eq_true_eq] at h
  unfold digitVal
  omega

theorem month_range_iff {m1 m2 : Char} (h1 : isDigitChar m1 = true) (h2 : isDigitChar m2 = true) :
    (1 ≤ digitVal m1 * 10 + digitVal m2 ∧ digitVal m1 * 10 + digitVal m2 ≤ 12) ↔
      (1 ≤ (m1.toNat - 48) * 10 + (m2.toNat - 48) ∧ (m1.toNat - 48) * 10 + (m2.toNat - 48) ≤ 12) := by
  have e1 := (digitVal_of_isDigitChar h1).1
  have e2 := (digitVal_of_isDigitChar h2).1
  rw [e1, e2]
  omega

theorem isMonthYearForm_iff (s : String) :
    isMonthYearForm s = true ↔
      ∃ m1 m2 y1 y2 y3 y4 : Char, s.toList = [m1, m2, '-', y1, y2, y3, y4] ∧
        (isDigitChar m1 = true ∧ isDigitChar m2 = true
          ∧ 1 ≤ digitVal m1 * 10 + digitVal m2 ∧ digitVal m1 * 10 + digitVal m2 ≤ 12) ∧
        (isDigitChar y1 = true ∧ isDigitChar y2 = true ∧ isDigitChar y3 = true
          ∧ isDigitChar y4 = true) := by
  unfold isMonthYearForm
  constructor
  · intro h
    split at h
    · rename_i m1 m2 c y1 y2 y3 y4 hs
      simp only [← isDigitChar_eq, Bool.and_eq_true, beq_iff_eq, decide_eq_true_eq] at h
      obtain ⟨⟨⟨⟨⟨⟨⟨⟨h1, h2⟩, hc⟩, h3⟩, h4⟩, h5⟩, h6⟩, h7⟩, h8⟩ := h
      subst hc
      exact ⟨m1, m2, y1, y2, y3, y4, hs, ⟨h1, h2, (month_range_iff h1 h2).2 ⟨h7, h8⟩⟩,
        h3, h4, h5, h6⟩
    · cases h
  · rintro ⟨m1, m2, y1, y2, y3, y4, hs, ⟨h1, h2, h7⟩, h3, h4, h5, h6⟩
    have h8 := (month_range_iff h1 h2).1 h7
    rw [hs]
    simp only [← isDigitChar_eq, h1, h2, h3, h4, h5, h6, beq_self_eq_true, Bool.and_self,
      h8.1, h8.2, decide_True]

theorem isYearMonthForm_iff (s : String) :
    isYearMonthForm s = true ↔
      ∃ y1 y2 y3 y4 m1 m2 : Char, s.toList = [y1, y2, y3, y4, '-', m1, m2] ∧
        (isDigitChar m1 = true ∧ isDigitChar m2 = true
          ∧ 1 ≤ digitVal m1 * 10 + digitVal m2 ∧ digitVal m1 * 10 + digitVal m2 ≤ 12) ∧
        (isDigitChar y1 = true ∧ isDigitChar y2 = true ∧ isDigitChar y3 = true
          ∧ isDigitChar y4 = true) := by
  unfold isYearMonthForm
  constructor
  · intro h
    split at h
    · rename_i y1 y2 y3 y4 c m1 m2 hs
      simp only [← isDigitChar_eq, Bool.and_eq_true, beq_iff_eq, decide_eq_true_eq] at h
      obtain ⟨⟨⟨⟨⟨⟨⟨⟨h3, h4⟩, h5⟩, h6⟩, hc⟩, h1⟩, h2⟩, h7⟩, h8⟩ := h
      subst hc
      exact ⟨y1, y2, y3, y4, m1, m2, hs, ⟨h1, h2, (month_range_iff h1 h2).2 ⟨h7, h8⟩⟩,
        h3, h4, h5, h6⟩
    · cases h
  · rintro ⟨y1, y2, y3, y4, m1, m2, hs, ⟨h1, h2, h7⟩, h3, h4, h5, h6⟩
    have h8 := (month_range_iff h1 h2).1 h7
    rw [hs]
    simp only [← isDigitChar_eq, h1, h2, h3, h4, h5, h6, beq_self_eq_true, Bool.and_self,
      h8.1, h8.2, decide_True]

theorem Parse_eq_some_iff (layout : Layout) (s : String) (t : Time) :
    Parse layout s = some t ↔
      ∃ y m : Int, Parse.loop layout s.toList 0 (-1) = some (y, m) ∧
        t = Time.Date y (if m < 0 then 1 else m) := by
  unfold Parse
  cases h : Parse.loop layout s.toList 0 (-1) with
  | none => simp
  | some p =>
    obtain ⟨y, m⟩ := p
    simp only [Option.some.injEq, Prod.mk.injEq]
    constructor
    · intro ht
      exact ⟨y, m, ⟨rfl, rfl⟩, ht.symm⟩
    · rintro ⟨y1, m1, ⟨rfl, rfl⟩, ht⟩
      exact ht.symm

theorem Parse_eq_none_iff (layout : Layout) (s : String) :
    Parse layout s = none ↔ Parse.loop layout s.toList 0 (-1) = none := by
  unfold Parse
  cases h : Parse.loop layout s.toList 0 (-1) with
  | none => simp
  | some p => simp

theorem Parse_monthYear_isSome_iff (s : String) :
    (Parse layoutMonthYear s).isSome = true ↔ isMonthYearForm s = true := by
  rw [isMonthYearForm_iff, Option.isSome_iff_exists]
  constructor
  · rintro ⟨t, ht⟩
    obtain ⟨y, m, hl, -⟩ := (Parse_eq_some_iff _ _ _).1 ht
    obtain ⟨m1, m2, y1, y2, y3, y4, hs, hm, hy, -, -⟩ := (Parse_loop_monthYear_iff _ _ _).1 hl
    exact ⟨m1, m2, y1, y2, y3, y4, hs, hm, hy⟩
  · rintro ⟨m1, m2, y1, y2, y3, y4, hs, hm, hy⟩
    exact ⟨_, (Parse_eq_some_iff _ _ _).2 ⟨_, _,
      (Parse_loop_monthYear_iff _ _ _).2 ⟨m1, m2, y1, y2, y3, y4, hs, hm, hy, rfl, rfl⟩, rfl⟩⟩

theorem Parse_yearMonth_isSome_iff (s : String) :
    (Parse layoutYearMonth s).isSome = true ↔ isYearMonthForm s = true := by
  rw [isYearMonthForm_iff, Option.isSome_iff_exists]
  constructor
  · rintro ⟨t, ht⟩
    obtain ⟨y, m, hl, -⟩ := (Parse_eq_some_iff _ _ _).1 ht
    obtain ⟨y1, y2, y3, y4, m1, m2, hs, hm, hy, -, -⟩ := (Parse_loop_yearMonth_iff _ _ _).1 hl
    exact ⟨y1, y2, y3, y4, m1, m2, hs, hm, hy⟩
  · rintro ⟨y1, y2, y3, y4, m1, m2, hs, hm, hy⟩
    exact ⟨_, (Parse_eq_some_iff _ _ _).2 ⟨_, _,
      (Parse_loop_yearMonth_iff _ _ _).2 ⟨y1, y2, y3, y4, m1, m2, hs, hm, hy, rfl, rfl⟩, rfl⟩⟩

theorem forms_disjoint (s : String) : ¬ (isMonthYearForm s = true ∧ isYearMonthForm s = true) := by
  rintro ⟨h1, h2⟩
  obtain ⟨m1, m2, y1, y2, y3, y4, hs, -, hy⟩ := (isMonthYearForm_iff s).1 h1
  obtain ⟨z1, z2, z3, z4, n1, n2, hs2, -, hz⟩ := (isYearMonthForm_iff s).1 h2
  rw [hs] at hs2
  simp only [List.cons.injEq, and_true] at hs2
  obtain ⟨-, -, h3, -⟩ := hs2
  have := hz.2.2.1
  rw [← h3] at this
  exact absurd this (by decide)

theorem parseMonthYear_unfold (s : String) :
    parseMonthYear s =
      match Parse layoutMonthYear s with
      | some t => (Time.Date t.year t.month, none)
      | none =>
        match Parse layoutYearMonth s with
        | some t => (Time.Date t.year t.month, none)
        | none => (Time.zero, some (GoError.errorString "invalid format")) := by
  unfold parseMonthYear
  simp only [parseMonthYear.loop]

/-- C3: `parseMonthYear` succeeds exactly on the strings of the form `MM-YYYY` or `YYYY-MM`
(two-digit month 01..12, four-digit year, one hyphen, nothing else); on every other string it
returns the zero time with the error `invalid format`. No string has both forms, the layout
`MM-YYYY` is tried first, and a string of the form `YYYY-MM` is read by the second layout
after the first one has failed. -/
theorem C3_parseMonthYear_two_layouts :
    (∀ s : String, (parseMonthYear s).2 = none ↔
      (isMonthYearForm s = true ∨ isYearMonthForm s = true)) ∧
    (∀ s : String, ¬ (isMonthYearForm s = true ∨ isYearMonthForm s = true) →
      parseMonthYear s = (Time.zero, some (GoError.errorString "invalid format"))) ∧
    (∀ s : String, ¬ (isMonthYearForm s = true ∧ isYearMonthForm s = true)) ∧
    (∀ s : String, isMonthYearForm s = true →
      ∃ t, Parse layoutMonthYear s = some t ∧
        parseMonthYear s = (Time.Date t.year t.month, none)) ∧
    (∀ s : String, isYearMonthForm s = true →
      Parse layoutMonthYear s = none ∧
      ∃ t, Parse layoutYearMonth s = some t ∧
        parseMonthYear s = (Time.Date t.year t.month, none)) := by
  have key : ∀ s : String,
      (isMonthYearForm s = true → ∃ t, Parse layoutMonthYear s = some t ∧
        parseMonthYear s = (Time.Date t.year t.month, none)) ∧
      (isYearMonthForm s = true → Parse layoutMonthYear s = none ∧
        ∃ t, Parse layoutYearMonth s = some t ∧
          parseMonthYear s = (Time.Date t.year t.month, none)) ∧
      (¬ (isMonthYearForm s = true ∨ isYearMonthForm s = true) →
        parseMonthYear s = (Time.zero, some (GoError.errorString "invalid format"))) := by
    intro s
    have hA := Parse_monthYear_isSome_iff s
    have hB := Parse_yearMonth_isSome_iff s
    have hD := forms_disjoint s
    rw [parseMonthYear_unfold]
    cases h1 : Parse layoutMonthYear s with
    | some t =>
      rw [h1] at hA
      have hf : isMonthYearForm s = true := hA.1 rfl
      refine ⟨fun _ => ⟨t, rfl, rfl⟩, fun h2 => absurd ⟨hf, h2⟩ hD, fun hn => absurd (Or.inl hf) hn⟩
    | none =>
      rw [h1] at hA
      have hf : ¬ isMonthYearForm s = true := fun h => by
        have := hA.2 h
        cases this
      cases h2 : Parse layoutYearMonth s with
      | some t =>
        rw [h2] at hB
        have hg : isYearMonthForm s = true := hB.1 rfl
        exact ⟨fun h => absurd h hf, fun _ => ⟨rfl, t, rfl, rfl⟩, fun hn => absurd (Or.inr hg) hn⟩
      | none =>
        rw [h2] at hB
        have hg : ¬ isYearMonthForm s = true := fun h => by
          have := hB.2 h
          cases this
        exact ⟨fun h => absurd h hf, fun h => absurd h hg, fun _ => rfl⟩
  refine ⟨?_, fun s => (key s).2.2, forms_disjoint, fun s => (key s).1, fun s => (key s).2.1⟩
  intro s
  constructor
  · intro h
    by_contra hn
    rw [(key s).2.2 hn] at h
    cases h
  · rintro (h | h)
    · obtain ⟨t, -, ht⟩ := (key s).1 h
      rw [ht]
    · obtain ⟨-, t, -, ht⟩ := (key s).2.1 h
      rw [ht]

/-- C3 at concrete inputs: `07-2025` and `2025-07` parse to July 2025; `2025-13` and `7-2025`
are rejected. -/
theorem C3_parseMonthYear_two_layouts_witness :
    parseMonthYear "07-2025" = (ym 2025 7, none) ∧
    parseMonthYear "2025-07" = (ym 2025 7, none) ∧
    parseMonthYear "2025-13" = (Time.zero, some (GoError.errorString "invalid format")) ∧
    parseMonthYear "7-2025" = (Time.zero, some (GoError.errorString "invalid format")) := by
  refine ⟨by decide, by decide, ?_, ?_⟩
  · exact C3_parseMonthYear_two_layouts.2.1 "2025-13" (by decide)
  · exact C3_parseMonthYear_two_layouts.2.1 "7-2025" (by decide)

/-! ## C4: round trip of `parseMonthYear` -/

theorem digitChar_spec (n : Nat) (h : n < 10) :
    isDigitChar (digitChar n) = true ∧ digitVal (digitChar n) = (n : Int) := by
  interval_cases n <;> decide

theorem Time.Date_of_month (y m : Int) (h1 : 1 ≤ m) (h2 : m ≤ 12) :
    Time.Date y m = { year := y, month := m.toNat, day := 1, nsec := 0 } := by
  simp only [Time.Date, Time.mk.injEq, and_true]
  constructor <;> omega

theorem Time.Date_self_of_calendar {t : Time} (h : t.IsCalendarMonth) :
    Time.Date t.year t.month = t := by
  obtain ⟨h1, h2, h3, h4⟩ := h
  rw [Time.Date_of_month _ _ (by omega) (by omega)]
  cases t
  simp only [Time.mk.injEq] at h3 h4 ⊢
  simp [h3, h4]

/-- A successful read of either layout yields the month and year that the digits spell. -/
theorem parseMonthYear_of_loop (layout : Layout) (s : String) (y m : Int)
    (hl : Parse.loop layout s.toList 0 (-1) = some (y, m)) (h1 : 1 ≤ m) (h2 : m ≤ 12) :
    Parse layout s = some { year := y, month := m.toNat, day := 1, nsec := 0 } := by
  rw [Parse_eq_some_iff]
  refine ⟨y, m, hl, ?_⟩
  rw [if_neg (by omega), Time.Date_of_month y m h1 h2]

theorem parseMonthYear_render (d : Time) (hd : d.IsCalendarMonth) (hy0 : 0 ≤ d.year)
    (hy1 : d.year ≤ 9999) :
    parseMonthYear (renderMonthYear d) = (d, none) ∧
      parseMonthYear (renderYearMonth d) = (d, none) := by
  obtain ⟨hm1, hm2, hday, hns⟩ := hd
  obtain ⟨y, m, dd, ns⟩ := d
  simp only at hm1 hm2 hday hns hy0 hy1
  subst hday hns
  obtain ⟨n, rfl⟩ := Int.eq_ofNat_of_zero_le hy0
  have hn : n ≤ 9999 := by omega
  have a1 := digitChar_spec (m / 10) (by omega)
  have a2 := digitChar_spec (m % 10) (by omega)
  have b1 := digitChar_spec (n / 1000) (by omega)
  have b2 := digitChar_spec (n / 100 % 10) (by omega)
  have b3 := digitChar_spec (n / 10 % 10) (by omega)
  have b4 := digitChar_spec (n % 10) (by omega)
  have hmv : digitVal (digitChar (m / 10)) * 10 + digitVal (digitChar (m % 10)) = (m : Int) := by
    rw [a1.2, a2.2]; omega
  have hyv : ((digitVal (digitChar (n / 1000)) * 10 + digitVal (digitChar (n / 100 % 10))) * 10
      + digitVal (digitChar (n / 10 % 10))) * 10 + digitVal (digitChar (n % 10)) = (n : Int) := by
    rw [b1.2, b2.2, b3.2, b4.2]; omega
  have hmcond : isDigitChar (digitChar (m / 10)) = true ∧ isDigitChar (digitChar (m % 10)) = true
      ∧ 1 ≤ digitVal (digitChar (m / 10)) * 10 + digitVal (digitChar (m % 10))
      ∧ digitVal (digitChar (m / 10)) * 10 + digitVal (digitChar (m % 10)) ≤ 12 := by
    refine ⟨a1.1, a2.1, ?_, ?_⟩ <;> rw [hmv] <;> omega
  have hycond : isDigitChar (digitChar (n / 1000)) = true
      ∧ isDigitChar (digitChar (n / 100 % 10)) = true
      ∧ isDigitChar (digitChar (n / 10 % 10)) = true
      ∧ isDigitChar (digitChar (n % 10)) = true := ⟨b1.1, b2.1, b3.1, b4.1⟩
  have hcal : ({ year := (n : Int), month := m, day := 1, nsec := 0 } : Time).IsCalendarMonth :=
    ⟨hm1, hm2, rfl, rfl⟩
  have hmy : Parse layoutMonthYear (renderMonthYear ⟨n, m, 1, 0⟩)
      = some { year := (n : Int), month := m, day := 1, nsec := 0 } := by
    have hl : Parse.loop layoutMonthYear (renderMonthYear ⟨n, m, 1, 0⟩).toList 0 (-1)
        = some ((n : Int), (m : Int)) :=
      (Parse_loop_monthYear_iff _ _ _).2
        ⟨_, _, _, _, _, _, rfl, hmcond, hycond, hmv.symm, hyv.symm⟩
    have := parseMonthYear_of_loop _ _ _ _ hl (by omega) (by omega)
    simpa using this
  have hym : Parse layoutYearMonth (renderYearMonth ⟨n, m, 1, 0⟩)
      = some { year := (n : Int), month := m, day := 1, nsec := 0 } := by
    have hl : Parse.loop layoutYearMonth (renderYearMonth ⟨n, m, 1, 0⟩).toList 0 (-1)
        = some ((n : Int), (m : Int)) :=
      (Parse_loop_yearMonth_iff _ _ _).2
        ⟨_, _, _, _, _, _, rfl, hmcond, hycond, hmv.symm, hyv.symm⟩
    have := parseMonthYear_of_loop _ _ _ _ hl (by omega) (by omega)
    simpa using this
  constructor
  · rw [parseMonthYear_unfold, hmy]
    simp only [Time.Date_self_of_calendar hcal]
  · rw [parseMonthYear_unfold]
    cases h1 : Parse layoutMonthYear (renderYearMonth ⟨n, m, 1, 0⟩) with
    | none =>
      simp only [hym, Time.Date_self_of_calendar hcal]
    | some t =>
      exfalso
      have hA := (Parse_monthYear_isSome_iff (renderYearMonth ⟨n, m, 1, 0⟩)).1 (by rw [h1]; rfl)
      have hB := (Parse_yearMonth_isSome_iff (renderYearMonth ⟨n, m, 1, 0⟩)).1 (by rw [hym]; rfl)
      exact forms_disjoint _ ⟨hA, hB⟩

/-- Every successful result of `parseMonthYear` is a calendar month of a year 0..9999. -/
theorem parseMonthYear_result (s : String) (t : Time) (h : parseMonthYear s = (t, none)) :
    t.IsCalendarMonth ∧ 0 ≤ t.year ∧ t.year ≤ 9999 := by
  have hyear : ∀ y1 y2 y3 y4 : Char, isDigitChar y1 = true ∧ isDigitChar y2 = true ∧
      isDigitChar y3 = true ∧ isDigitChar y4 = true →
      0 ≤ ((digitVal y1 * 10 + digitVal y2) * 10 + digitVal y3) * 10 + digitVal y4 ∧
      ((digitVal y1 * 10 + digitVal y2) * 10 + digitVal y3) * 10 + digitVal y4 ≤ 9999 := by
    intro y1 y2 y3 y4 ⟨h1, h2, h3, h4⟩
    have := digitVal_of_isDigitChar h1
    have := digitVal_of_isDigitChar h2
    have := digitVal_of_isDigitChar h3
    have := digitVal_of_isDigitChar h4
    omega
  have hok : ∀ (layout : Layout) (y m : Int),
      Parse.loop layout s.toList 0 (-1) = some (y, m) → 1 ≤ m → m ≤ 12 → 0 ≤ y → y ≤ 9999 →
      ∀ u, Parse layout s = some u →
        (Time.Date u.year u.month).IsCalendarMonth ∧ 0 ≤ (Time.Date u.year u.month).year
          ∧ (Time.Date u.year u.month).year ≤ 9999 := by
    intro layout y m hl h1 h2 h3 h4 u hu
    rw [parseMonthYear_of_loop layout s y m hl h1 h2] at hu
    cases hu
    have hcal : ({ year := y, month := m.toNat, day := 1, nsec := 0 } : Time).IsCalendarMonth :=
      ⟨by show 1 ≤ m.toNat; omega, by show m.toNat ≤ 12; omega, rfl, rfl⟩
    rw [Time.Date_self_of_calendar hcal]
    exact ⟨hcal, h3, h4⟩
  rw [parseMonthYear_unfold] at h
  cases h1 : Parse layoutMonthYear s with
  | some u =>
    rw [h1] at h
    simp only [Prod.mk.injEq, and_true] at h
    obtain ⟨y, m, hl, -⟩ := (Parse_eq_some_iff _ _ _).1 h1
    obtain ⟨m1, m2, y1, y2, y3, y4, -, hm, hy, rfl, rfl⟩ := (Parse_loop_monthYear_iff _ _ _).1 hl
    have := hok _ _ _ hl hm.2.2.1 hm.2.2.2 (hyear _ _ _ _ hy).1 (hyear _ _ _ _ hy).2 u h1
    rwa [h] at this
  | none =>
    rw [h1] at h
    cases h2 : Parse layoutYearMonth s with
    | some u =>
      rw [h2] at h
      simp only [Prod.mk.injEq, and_true] at h
      obtain ⟨y, m, hl, -⟩ := (Parse_eq_some_iff _ _ _).1 h2
      obtain ⟨y1, y2, y3, y4, m1, m2, -, hm, hy, rfl, rfl⟩ :=
        (Parse_loop_yearMonth_iff _ _ _).1 hl
      have := hok _ _ _ hl hm.2.2.1 hm.2.2.2 (hyear _ _ _ _ hy).1 (hyear _ _ _ _ hy).2 u h2
      rwa [h] at this
    | none =>
      rw [h2] at h
      simp at h

/-- C4: for every calendar month `d` of a year 0..9999, `parseMonthYear` applied to `d`
rendered as `MM-YYYY` returns `d`, and applied to `d` rendered as `YYYY-MM` returns `d`. Hence
for every string that parses, the result is a calendar month (first day, midnight UTC) of a
year 0..9999, and re-parsing its canonical rendering in either layout yields the same date. -/
theorem C4_parseMonthYear_round_trip :
    (∀ d : Time, d.IsCalendarMonth → 0 ≤ d.year → d.year ≤ 9999 →
      parseMonthYear (renderMonthYear d) = (d, none) ∧
      parseMonthYear (renderYearMonth d) = (d, none)) ∧
    (∀ (s : String) (t : Time), parseMonthYear s = (t, none) →
      t.IsCalendarMonth ∧ 0 ≤ t.year ∧ t.year ≤ 9999 ∧
      parseMonthYear (renderMonthYear t) = (t, none) ∧
      parseMonthYear (renderYearMonth t) = (t, none)) := by
  refine ⟨parseMonthYear_render, ?_⟩
  intro s t h
  obtain ⟨hc, h0, h1⟩ := parseMonthYear_result s t h
  exact ⟨hc, h0, h1, parseMonthYear_render t hc h0 h1⟩

/-- C4 at concrete inputs: March 2025 survives both renderings, and the result of parsing
`2025-07` re-parses from `07-2025`. -/
theorem C4_parseMonthYear_round_trip_witness :
    renderMonthYear (ym 2025 3) = "03-2025" ∧
    parseMonthYear (renderMonthYear (ym 2025 3)) = (ym 2025 3, none) ∧
    parseMonthYear (renderYearMonth (ym 2025 3)) = (ym 2025 3, none) ∧
    parseMonthYear (renderMonthYear (ym 2025 7)) = (ym 2025 7, none) := by
  have h := C4_parseMonthYear_round_trip.1 (ym 2025 3) (by decide) (by decide) (by decide)
  have h2 := C4_parseMonthYear_round_trip.2 "2025-07" (ym 2025 7) (by decide)
  exact ⟨by decide, h.1, h.2, h2.2.2.2.1⟩

/-! ## C5: a failing store fetch -/

theorem GoError.wrapError_ne (msg : String) (e : GoError) : GoError.wrapError msg e ≠ e := by
  intro h
  have := congrArg sizeOf h
  simp only [GoError.wrapError.sizeOf_spec] at this
  omega

/-- C5 (as stated, refuted): when the store's period query fails with the error `boom`,
`SumCost` does not return that error itself: it returns a new error with the message
`error getting subs for period: boom: services.subscriptions_service.SumCost`. -/
theorem C5_error_not_passed_unchanged :
    (failingRepo (GoError.errorString "boom")).GetSubscriptionsForPeriod
        (ym 2025 1) (ym 2025 3) none none ()
      = (([], some (GoError.errorString "boom")), ()) ∧
    (SumCost (failingRepo (GoError.errorString "boom")) (ym 2025 1) (ym 2025 3) none none ()).1.2
      ≠ some (GoError.errorString "boom") ∧
    (SumCost (failingRepo (GoError.errorString "boom")) (ym 2025 1) (ym 2025 3) none none ()).1.2
      = some (GoError.wrapError
          "error getting subs for period: boom: services.subscriptions_service.SumCost"
          (GoError.errorString "boom")) := by
  refine ⟨rfl, by decide, by decide⟩

/-- C5 (amended): whenever the store's period query fails with an error `e`, `SumCost` fails
with total `0` (no partial total, whatever rows came with the error) and returns a new error
that wraps `e`: its message is `error getting subs for period: ` followed by the message of
`e` and `: services.subscriptions_service.SumCost`, and unwrapping it gives `e` itself. -/
theorem C5_sumCost_wraps_store_error {σ : Type} (repo : ISubscriptionsRepository σ)
    (periodStart periodEnd : Time) (userID : Option UUID) (serviceName : Option String)
    (st st1 : σ) (subs : List Subscription) (e : GoError)
    (hfetch : repo.GetSubscriptionsForPeriod periodStart periodEnd userID serviceName st
      = ((subs, some e), st1)) :
    ∃ err : GoError,
      SumCost repo periodStart periodEnd userID serviceName st = ((0, some err), st1) ∧
      err.Unwrap = some e ∧
      err.Error = "error getting subs for period: " ++ e.Error
        ++ ": services.subscriptions_service.SumCost" ∧
      err ≠ e := by
  refine ⟨GoError.wrapError ("error getting subs for period: " ++ e.Error
    ++ ": services.subscriptions_service.SumCost") e, ?_, rfl, rfl, GoError.wrapError_ne _ _⟩
  have hmsg : ": " ++ "services.subscriptions_service.SumCost"
      = ": services.subscriptions_service.SumCost" := by decide
  unfold SumCost
  simp only [hfetch, String.append_assoc, hmsg]

/-- C5 (amended), at a concrete input: the store fails with `boom`. -/
theorem C5_sumCost_wraps_store_error_witness :
    ∃ err : GoError,
      SumCost (failingRepo (GoError.errorString "boom")) (ym 2025 1) (ym 2025 3) none none ()
        = ((0, some err), ()) ∧
      err.Unwrap = some (GoError.errorString "boom") ∧
      err.Error = "error getting subs for period: " ++ (GoError.errorString "boom").Error
        ++ ": services.subscriptions_service.SumCost" ∧
      err ≠ GoError.errorString "boom" :=
  C5_sumCost_wraps_store_error (failingRepo (GoError.errorString "boom")) (ym 2025 1) (ym 2025 3)
    none none () () [] (GoError.errorString "boom") rfl

/-! ## C7: validation on the write path -/

theorem dropWhile_reverse_dropWhile_eq_nil (p : Char → Bool) (l : List Char) :
    ((l.dropWhile p).reverse.dropWhile p) = [] ↔ l.all p = true := by
  rw [List.dropWhile_eq_nil_iff, List.all_eq_true]
  constructor
  · intro h
    have hnil : l.dropWhile p = [] := by
      by_contra hne
      have h1 := List.head_dropWhile_not p l hne
      have h2 := h ((l.dropWhile p).head hne) (List.mem_reverse.2 (List.head_mem hne))
      rw [h1] at h2
      cases h2
    exact List.dropWhile_eq_nil_iff.1 hnil
  · intro h x hx
    have hnil : l.dropWhile p = [] := List.dropWhile_eq_nil_iff.2 h
    rw [hnil] at hx
    cases hx

theorem TrimSpace_eq_empty_iff (s : String) : TrimSpace s = "" ↔ isBlank s = true := by
  unfold TrimSpace isBlank
  rw [← dropWhile_reverse_dropWhile_eq_nil isSpace s.toList]
  constructor
  · intro h
    have := congrArg String.toList h
    simpa using this
  · intro h
    rw [h]
    rfl

theorem CreateSubscription_reject {σ : Type} (repo : ISubscriptionsRepository σ)
    (sub : Subscription) (st : σ)
    (h : isBlank sub.ServiceName = true ∨ sub.Price < 0 ∨
      ∃ e, sub.EndDate = some e ∧ e < sub.StartDate) :
    ∃ err, CreateSubscription repo sub st = ((-1, some err), st) := by
  unfold CreateSubscription
  by_cases h1 : TrimSpace sub.ServiceName = ""
  · rw [if_pos h1]
    exact ⟨_, rfl⟩
  rw [if_neg h1]
  by_cases h2 : sub.Price < 0
  · rw [if_pos h2]
    exact ⟨_, rfl⟩
  rw [if_neg h2]
  rcases h with h | h | ⟨e, he, hlt⟩
  · exact absurd ((TrimSpace_eq_empty_iff _).2 h) h1
  · exact absurd h h2
  · have hb : e.Before sub.StartDate = true := (Time.Before_iff_lt _ _).2 hlt
    rw [he]
    simp only
    rw [if_pos hb]
    exact ⟨_, rfl⟩

theorem CreateSubscription_delegate {σ : Type} (repo : ISubscriptionsRepository σ)
    (sub : Subscription) (st : σ)
    (h : ¬ (isBlank sub.ServiceName = true ∨ sub.Price < 0 ∨
      ∃ e, sub.EndDate = some e ∧ e < sub.StartDate)) :
    CreateSubscription repo sub st = repo.CreateSubscription sub st := by
  have h1 : ¬ TrimSpace sub.ServiceName = "" := fun hh =>
    h (Or.inl ((TrimSpace_eq_empty_iff _).1 hh))
  have h2 : ¬ sub.Price < 0 := fun hh => h (Or.inr (Or.inl hh))
  unfold CreateSubscription
  simp only [h1, h2, if_false]
  cases he : sub.EndDate with
  | none => rfl
  | some e =>
    have hb : ¬ e.Before sub.StartDate = true := fun hh =>
      h (Or.inr (Or.inr ⟨e, he, (Time.Before_iff_lt _ _).1 hh⟩))
    simp only
    rw [if_neg hb]

theorem UpdateSubscription_reject {σ : Type} (repo : ISubscriptionsRepository σ) (id : Int)
    (sub : Subscription) (st : σ)
    (h : sub.Price < 0 ∨ ∃ e, sub.EndDate = some e ∧ e < sub.StartDate) :
    ∃ err, UpdateSubscription repo id sub st = (some err, st) := by
  unfold UpdateSubscription
  by_cases h2 : sub.Price < 0
  · rw [if_pos h2]
    exact ⟨_, rfl⟩
  rw [if_neg h2]
  rcases h with h | ⟨e, he, hlt⟩
  · exact absurd h h2
  · have hb : e.Before sub.StartDate = true := (Time.Before_iff_lt _ _).2 hlt
    rw [he]
    simp only
    rw [if_pos hb]
    exact ⟨_, rfl⟩

theorem UpdateSubscription_delegate {σ : Type} (repo : ISubscriptionsRepository σ) (id : Int)
    (sub : Subscription) (st : σ)
    (h : ¬ (sub.Price < 0 ∨ ∃ e, sub.EndDate = some e ∧ e < sub.StartDate)) :
    UpdateSubscription repo id sub st = repo.UpdateSubscription id sub st := by
  have h2 : ¬ sub.Price < 0 := fun hh => h (Or.inl hh)
  unfold UpdateSubscription
  simp only [h2, if_false]
  cases he : sub.EndDate with
  | none => rfl
  | some e =>
    have hb : ¬ e.Before sub.StartDate = true := fun hh =>
      h (Or.inr ⟨e, he, (Time.Before_iff_lt _ _).1 hh⟩)
    simp only
    rw [if_neg hb]

/-- C7 (as stated, refuted): a record whose service name is one space, with price 10 and no
end date, violates none of the three rules, yet `CreateSubscription` returns an error and the
store receives no call; and a record with the empty service name, price 10 and no end date is
passed by `UpdateSubscription` to the store, which receives the update call. -/
theorem C7_write_rules_refuted :
    ¬ violatesWriteRules { mkSub 10 (ym 2025 1) none with ServiceName := " " } ∧
    CreateSubscription traceRepo { mkSub 10 (ym 2025 1) none with ServiceName := " " } []
      = ((-1, some (GoError.errorString
          "service_name cannot be empty: services.subscriptions_service.CreateSubscription")),
        []) ∧
    violatesWriteRules { mkSub 10 (ym 2025 1) none with ServiceName := "" } ∧
    UpdateSubscription traceRepo 1 { mkSub 10 (ym 2025 1) none with ServiceName := "" } []
      = (none, [StoreCall.update 1 { mkSub 10 (ym 2025 1) none with ServiceName := "" }]) := by
  refine ⟨?_, by decide, Or.inl rfl, by decide⟩
  rintro (h | h | ⟨e, he, -⟩)
  · exact absurd h (by decide)
  · exact absurd h (by decide)
  · cases he

/-- C7 (amended): `CreateSubscription` returns an error without invoking the store (for every
repository the store state is returned untouched, and a recording repository records no call)
for every record whose service name is empty or white space only, or whose price is negative,
or whose end date is present and earlier than its start date, and it delegates to the store
for every other record. `UpdateSubscription` returns an error without invoking the store for
every record whose price is negative or whose end date is present and earlier than its start
date, and it delegates to the store for every record that violates none of the three rules. -/
theorem C7_write_path_validation {σ : Type} (repo : ISubscriptionsRepository σ) (id : Int)
    (sub : Subscription) (st : σ) (log : List StoreCall) :
    ((isBlank sub.ServiceName = true ∨ sub.Price < 0 ∨
        ∃ e, sub.EndDate = some e ∧ e < sub.StartDate) →
      (∃ err, CreateSubscription repo sub st = ((-1, some err), st)) ∧
      (CreateSubscription traceRepo sub log).2 = log) ∧
    (¬ (isBlank sub.ServiceName = true ∨ sub.Price < 0 ∨
        ∃ e, sub.EndDate = some e ∧ e < sub.StartDate) →
      CreateSubscription repo sub st = repo.CreateSubscription sub st ∧
      (CreateSubscription traceRepo sub log).2 = log ++ [StoreCall.create sub]) ∧
    ((sub.Price < 0 ∨ ∃ e, sub.EndDate = some e ∧ e < sub.StartDate) →
      (∃ err, UpdateSubscription repo id sub st = (some err, st)) ∧
      (UpdateSubscription traceRepo id sub log).2 = log) ∧
    (¬ violatesWriteRules sub →
      UpdateSubscription repo id sub st = repo.UpdateSubscription id sub st ∧
      (UpdateSubscription traceRepo id sub log).2 = log ++ [StoreCall.update id sub]) := by
  refine ⟨fun h => ⟨CreateSubscription_reject repo sub st h, ?_⟩,
    fun h => ⟨CreateSubscription_delegate repo sub st h, ?_⟩,
    fun h => ⟨UpdateSubscription_reject repo id sub st h, ?_⟩, fun h => ?_⟩
  · obtain ⟨err, he⟩ := CreateSubscription_reject traceRepo sub log h
    rw [he]
  · rw [CreateSubscription_delegate traceRepo sub log h]
    rfl
  · obtain ⟨err, he⟩ := UpdateSubscription_reject traceRepo id sub log h
    rw [he]
  · have h2 : ¬ (sub.Price < 0 ∨ ∃ e, sub.EndDate = some e ∧ e < sub.StartDate) :=
      fun hh => h (Or.inr hh)
    refine ⟨UpdateSubscription_delegate repo id sub st h2, ?_⟩
    rw [UpdateSubscription_delegate traceRepo id sub log h2]
    rfl

/-- C7 (amended), at concrete inputs: a record of price -5 is rejected by both methods with
no call to the store, and a valid record reaches the store through both. -/
theorem C7_write_path_validation_witness :
    (CreateSubscription traceRepo (mkSub (-5) (ym 2025 1) none) []).2 = [] ∧
    (UpdateSubscription traceRepo 1 (mkSub (-5) (ym 2025 1) none) []).2 = [] ∧
    (CreateSubscription traceRepo (mkSub 5 (ym 2025 1) (some (ym 2025 2))) []).2
      = [StoreCall.create (mkSub 5 (ym 2025 1) (some (ym 2025 2)))] ∧
    (UpdateSubscription traceRepo 1 (mkSub 5 (ym 2025 1) (some (ym 2025 2))) []).2
      = [StoreCall.update 1 (mkSub 5 (ym 2025 1) (some (ym 2025 2)))] := by
  have hbad := C7_write_path_validation traceRepo 1 (mkSub (-5) (ym 2025 1) none) [] []
  have hgood := C7_write_path_validation traceRepo 1 (mkSub 5 (ym 2025 1) (some (ym 2025 2))) [] []
  have hv : ¬ violatesWriteRules (mkSub 5 (ym 2025 1) (some (ym 2025 2))) := by
    rintro (h | h | ⟨e, he, hlt⟩)
    · exact absurd h (by decide)
    · exact absurd h (by decide)
    · cases he
      exact absurd hlt (by decide)
  have hv2 : ¬ (isBlank (mkSub 5 (ym 2025 1) (some (ym 2025 2))).ServiceName = true ∨
      (mkSub 5 (ym 2025 1) (some (ym 2025 2))).Price < 0 ∨
      ∃ e, (mkSub 5 (ym 2025 1) (some (ym 2025 2))).EndDate = some e ∧
        e < (mkSub 5 (ym 2025 1) (some (ym 2025 2))).StartDate) := by
    rintro (h | h | ⟨e, he, hlt⟩)
    · exact absurd h (by decide)
    · exact absurd h (by decide)
    · cases he
      exact absurd hlt (by decide)
  exact ⟨(hbad.1 (Or.inr (Or.inl (by decide)))).2, (hbad.2.2.1 (Or.inl (by decide))).2,
    (hgood.2.1 hv2).2, (hgood.2.2.2 hv).2⟩

/-! ## C8: the order of the rows -/

theorem specTotal_perm (periodStart periodEnd : Time) {l1 l2 : List Subscription}
    (h : l1.Perm l2) : specTotal periodStart periodEnd l1 = specTotal periodStart periodEnd l2 := by
  unfold specTotal
  exact (h.map _).sum_eq

/-- C8: for every period and every two lists of rows that are permutations of each other,
`SumCost` returns the same total and no error, the 64-bit wraparound of the accumulation
included. -/
theorem C8_sumCost_order_irrelevant {σ : Type} (repo1 repo2 : ISubscriptionsRepository σ)
    (periodStart periodEnd : Time) (userID : Option UUID) (serviceName : Option String)
    (st1 st1a st2 st2a : σ) (l1 l2 : List Subscription) (hperm : l1.Perm l2)
    (hfetch1 : repo1.GetSubscriptionsForPeriod periodStart periodEnd userID serviceName st1
      = ((l1, none), st1a))
    (hfetch2 : repo2.GetSubscriptionsForPeriod periodStart periodEnd userID serviceName st2
      = ((l2, none), st2a)) :
    SumCost.loop periodStart periodEnd l1 = SumCost.loop periodStart periodEnd l2 ∧
    (SumCost repo1 periodStart periodEnd userID serviceName st1).1
      = (SumCost repo2 periodStart periodEnd userID serviceName st2).1 := by
  rw [SumCost_ok _ _ _ _ _ _ _ _ hfetch1, SumCost_ok _ _ _ _ _ _ _ _ hfetch2,
    SumCost.loop_eq, SumCost.loop_eq, specTotal_perm periodStart periodEnd hperm]
  exact ⟨rfl, rfl⟩

/-- C8 at a concrete input: two rows in either order, one of them with a price that makes
the accumulation wrap. -/
theorem C8_sumCost_order_irrelevant_witness :
    (SumCost (fixedRepo [mkSub 9223372036854775807 (ym 2025 1) none, mkSub 7 (ym 2025 2) none])
        (ym 2025 1) (ym 2025 3) none none ()).1
      = (SumCost (fixedRepo [mkSub 7 (ym 2025 2) none, mkSub 9223372036854775807 (ym 2025 1) none])
        (ym 2025 1) (ym 2025 3) none none ()).1 :=
  (C8_sumCost_order_irrelevant
    (fixedRepo [mkSub 9223372036854775807 (ym 2025 1) none, mkSub 7 (ym 2025 2) none])
    (fixedRepo [mkSub 7 (ym 2025 2) none, mkSub 9223372036854775807 (ym 2025 1) none])
    (ym 2025 1) (ym 2025 3) none none () () () () _ _ (List.Perm.swap _ _ _) rfl rfl).2

/-! ## C9: no overflow for bounded prices -/

theorem Time.monthIndex_bounds {t : Time} (h : t.InCommonEra) :
    1 ≤ t.monthIndex ∧ t.monthIndex ≤ 120000 := by
  obtain ⟨⟨h1, h2, -⟩, h3, h4⟩ := h
  unfold Time.monthIndex
  omega

theorem SumCost.months_bounds (periodStart periodEnd : Time) (s : Subscription)
    (hps : periodStart.InCommonEra) (hpe : periodEnd.InCommonEra)
    (hs : s.StartDate.InCommonEra) (he : ∀ e, s.EndDate = some e → e.InCommonEra) :
    0 ≤ SumCost.months periodStart periodEnd s ∧
      SumCost.months periodStart periodEnd s ≤ 120000 := by
  have hS : (effectiveStart periodStart s).InCommonEra := by
    unfold effectiveStart
    rcases max_choice s.StartDate periodStart with h | h <;> rw [h] <;> assumption
  have hE : (effectiveEnd periodEnd s).InCommonEra := by
    have hd : (s.EndDate.getD periodEnd).InCommonEra := by
      cases hh : s.EndDate with
      | none => simpa using hpe
      | some e => simpa using he e hh
    unfold effectiveEnd
    rcases min_choice (s.EndDate.getD periodEnd) periodEnd with h | h <;> rw [h] <;> assumption
  have b1 := Time.monthIndex_bounds hS
  have b2 := Time.monthIndex_bounds hE
  rw [SumCost.months_eq, specMonths_eq_index]
  constructor
  · exact le_max_left _ _
  · apply max_le <;> omega

theorem specTotal_bounds (periodStart periodEnd : Time) (l : List Subscription)
    (hps : periodStart.InCommonEra) (hpe : periodEnd.InCommonEra)
    (hl : ∀ s ∈ l, (0 ≤ s.Price ∧ s.Price < 2 ^ 31) ∧ s.StartDate.InCommonEra ∧
      ∀ e, s.EndDate = some e → e.InCommonEra) :
    0 ≤ specTotal periodStart periodEnd l ∧
      specTotal periodStart periodEnd l ≤ (l.length : Int) * (2147483647 * 120000) := by
  induction l with
  | nil => simp [specTotal]
  | cons s rest ih =>
    have hrest := ih (fun x hx => hl x (List.mem_cons_of_mem _ hx))
    obtain ⟨⟨hp0, hp1⟩, hsd, hed⟩ := hl s (List.mem_cons_self _ _)
    have hm := SumCost.months_bounds periodStart periodEnd s hps hpe hsd hed
    rw [SumCost.months_eq] at hm
    have hprod0 : 0 ≤ s.Price * max 0 (specMonths periodStart periodEnd s) :=
      mul_nonneg hp0 hm.1
    have hprod1 : s.Price * max 0 (specMonths periodStart periodEnd s) ≤ 2147483647 * 120000 :=
      mul_le_mul (by omega) hm.2 hm.1 (by norm_num)
    have hcons : specTotal periodStart periodEnd (s :: rest)
        = s.Price * max 0 (specMonths periodStart periodEnd s)
          + specTotal periodStart periodEnd rest := by
      simp [specTotal]
    rw [hcons]
    simp only [List.length_cons, Nat.cast_add, Nat.cast_one]
    constructor
    · omega
    · nlinarith [hrest.2]

/-- C9: for every list of fewer than 2^15 subscriptions, each with `0 <= price < 2^31`, and
with all subscription dates and both period boundaries in the years 0..9999, every product
`int64(price) * int64(months)` and every partial sum of the accumulation in `SumCost` stays
within the signed 64-bit range, so the running total after every prefix of the list, and the
returned total, equal the exact mathematical sum of `price * months`. -/
theorem C9_sumCost_no_overflow {σ : Type} (repo : ISubscriptionsRepository σ)
    (periodStart periodEnd : Time) (userID : Option UUID) (serviceName : Option String)
    (st st1 : σ) (subs : List Subscription)
    (hfetch : repo.GetSubscriptionsForPeriod periodStart periodEnd userID serviceName st
      = ((subs, none), st1))
    (hlen : subs.length < 2 ^ 15)
    (hps : periodStart.InCommonEra) (hpe : periodEnd.InCommonEra)
    (hl : ∀ s ∈ subs, (0 ≤ s.Price ∧ s.Price < 2 ^ 31) ∧ s.StartDate.InCommonEra ∧
      ∀ e, s.EndDate = some e → e.InCommonEra) :
    (∀ s ∈ subs, inInt64 (s.Price * SumCost.months periodStart periodEnd s)) ∧
    (∀ k : Nat, inInt64 (specTotal periodStart periodEnd (subs.take k)) ∧
      SumCost.loop periodStart periodEnd (subs.take k)
        = specTotal periodStart periodEnd (subs.take k)) ∧
    SumCost repo periodStart periodEnd userID serviceName st
      = ((specTotal periodStart periodEnd subs, none), st1) := by
  have hpart : ∀ k : Nat, inInt64 (specTotal periodStart periodEnd (subs.take k)) := by
    intro k
    have hb := specTotal_bounds periodStart periodEnd (subs.take k) hps hpe
      (fun s hs => hl s (List.mem_of_mem_take hs))
    have hk : ((subs.take k).length : Int) ≤ 32767 := by
      have h1 : (subs.take k).length ≤ subs.length := by
        rw [List.length_take]
        exact Nat.min_le_right _ _
      have h2 : (2 : Nat) ^ 15 = 32768 := by norm_num
      omega
    unfold inInt64
    constructor
    · have : -(2 : Int) ^ 63 ≤ 0 := by norm_num
      omega
    · have h3 : ((subs.take k).length : Int) * (2147483647 * 120000) ≤ 32767 * (2147483647 * 120000) :=
        mul_le_mul_of_nonneg_right hk (by norm_num)
      have h4 : (32767 : Int) * (2147483647 * 120000) < 2 ^ 63 := by norm_num
      omega
  refine ⟨?_, fun k => ⟨hpart k, ?_⟩, ?_⟩
  · intro s hs
    obtain ⟨⟨hp0, hp1⟩, hsd, hed⟩ := hl s hs
    have hm := SumCost.months_bounds periodStart periodEnd s hps hpe hsd hed
    have h0 : 0 ≤ s.Price * SumCost.months periodStart periodEnd s := mul_nonneg hp0 hm.1
    have h1 : s.Price * SumCost.months periodStart periodEnd s ≤ 2147483647 * 120000 :=
      mul_le_mul (by omega) hm.2 hm.1 (by norm_num)
    unfold inInt64
    constructor
    · have : -(2 : Int) ^ 63 ≤ 0 := by norm_num
      omega
    · have h4 : (2147483647 : Int) * 120000 < 2 ^ 63 := by norm_num
      omega
  · rw [SumCost.loop_eq, wrap64_of_inInt64 (hpart k)]
  · have hall := hpart subs.length
    rw [List.take_length] at hall
    rw [SumCost_ok _ _ _ _ _ _ _ _ hfetch, wrap64_of_inInt64 hall]

/-- C9 at a concrete input: one subscription 2024-06..2025-12 of price 100, queried over
2025-01..2025-03. -/
theorem C9_sumCost_no_overflow_witness :
    SumCost (fixedRepo [mkSub 100 (ym 2024 6) (some (ym 2025 12))])
        (ym 2025 1) (ym 2025 3) none none ()
      = ((specTotal (ym 2025 1) (ym 2025 3) [mkSub 100 (ym 2024 6) (some (ym 2025 12))], none),
        ()) :=
  (C9_sumCost_no_overflow (fixedRepo [mkSub 100 (ym 2024 6) (some (ym 2025 12))])
    (ym 2025 1) (ym 2025 3) none none () () [mkSub 100 (ym 2024 6) (some (ym 2025 12))] rfl
    (by decide) (by decide) (by decide)
    (by
      intro s hs
      rw [List.mem_singleton] at hs
      subst hs
      refine ⟨⟨by decide, by decide⟩, by decide, ?_⟩
      intro e he
      have : e = ym 2025 12 := by
        simp only [mkSub, Option.some.injEq] at he
        exact he.symm
      subst this
      decide)).2.2

/-! ## C6: the period query of the repository -/

open SubscriptionsRepository in
theorem build_none_none (periodStart periodEnd : Time) :
    GetSubscriptionsForPeriod.build periodStart periodEnd none none
      = (GetSubscriptionsForPeriod.text, [Arg.time periodEnd, Arg.time periodStart]) := rfl

theorem placeholder_text :
    " AND user_id = $" ++ toString (2 + 1) = " AND user_id = $3" ∧
    " AND service_name = $" ++ toString (2 + 1) = " AND service_name = $3" ∧
    " AND service_name = $" ++ toString (3 + 1) = " AND service_name = $4" := by
  decide

open SubscriptionsRepository in
theorem build_some_none (periodStart periodEnd : Time) (u : UUID) :
    GetSubscriptionsForPeriod.build periodStart periodEnd (some u) none
      = (GetSubscriptionsForPeriod.text ++ " AND user_id = $3",
        [Arg.time periodEnd, Arg.time periodStart, Arg.uuid u]) := by
  show (GetSubscriptionsForPeriod.text ++ (" AND user_id = $" ++ toString (2 + 1)), _) = _
  rw [placeholder_text.1]
  rfl

open SubscriptionsRepository in
theorem build_none_some (periodStart periodEnd : Time) (n : String) :
    GetSubscriptionsForPeriod.build periodStart periodEnd none (some n)
      = (GetSubscriptionsForPeriod.text ++ " AND service_name = $3",
        [Arg.time periodEnd, Arg.time periodStart, Arg.text n]) := by
  show (GetSubscriptionsForPeriod.text ++ (" AND service_name = $" ++ toString (2 + 1)), _) = _
  rw [placeholder_text.2.1]
  rfl

open SubscriptionsRepository in
theorem build_some_some (periodStart periodEnd : Time) (u : UUID) (n : String) :
    GetSubscriptionsForPeriod.build periodStart periodEnd (some u) (some n)
      = (GetSubscriptionsForPeriod.text ++ " AND user_id = $3" ++ " AND service_name = $4",
        [Arg.time periodEnd, Arg.time periodStart, Arg.uuid u, Arg.text n]) := by
  show (GetSubscriptionsForPeriod.text ++ (" AND user_id = $" ++ toString (2 + 1))
    ++ (" AND service_name = $" ++ toString (3 + 1)), _) = _
  rw [placeholder_text.1, placeholder_text.2.2]
  rfl

set_option maxRecDepth 10000 in
open SubscriptionsRepository in
theorem sqlParse_period :
    sqlParse GetSubscriptionsForPeriod.text = some (Stmt.selectPeriod []) ∧
    sqlParse (GetSubscriptionsForPeriod.text ++ " AND user_id = $3")
      = some (Stmt.selectPeriod [Filter.userID 3]) ∧
    sqlParse (GetSubscriptionsForPeriod.text ++ " AND service_name = $3")
      = some (Stmt.selectPeriod [Filter.serviceName 3]) ∧
    sqlParse (GetSubscriptionsForPeriod.text ++ " AND user_id = $3" ++ " AND service_name = $4")
      = some (Stmt.selectPeriod [Filter.userID 3, Filter.serviceName 4]) := by
  decide

open SubscriptionsRepository in
theorem GetSubscriptionsForPeriod_rows (conn : Conn) (periodStart periodEnd : Time)
    (userID : Option UUID) (serviceName : Option String) (hup : conn.down = none) :
    GetSubscriptionsForPeriod periodStart periodEnd userID serviceName conn
      = ((conn.rows.filter (fun s =>
          decide (selectedForPeriod periodStart periodEnd userID serviceName s)), none), conn) := by
  obtain ⟨p0, p1, p2, p3⟩ := sqlParse_period
  have hrow : ∀ (s : Subscription) (b : Bool), ((decide (s.StartDate ≤ periodEnd) &&
      (match s.EndDate with
        | none => true
        | some e => decide (e ≥ periodStart)) && b)
      = true) ↔ (s.StartDate ≤ periodEnd ∧ (∀ e, s.EndDate = some e → e ≥ periodStart) ∧ b = true) := by
    intro s b
    cases s.EndDate <;> simp [and_assoc]
  unfold GetSubscriptionsForPeriod
  cases userID with
  | none =>
    cases serviceName with
    | none =>
      simp only [build_none_none, Conn.Query, hup, p0, sqlResolve]
      congr 2
      apply List.filter_congr
      intro s _
      rw [Bool.eq_iff_iff, hrow]
      simp [selectedForPeriod]
    | some n =>
      simp only [build_none_some, Conn.Query, hup, p2, sqlResolve, Filter.resolve]
      simp only [List.get?, Nat.add_one_sub_one]
      congr 2
      apply List.filter_congr
      intro s _
      rw [Bool.eq_iff_iff, hrow]
      simp [selectedForPeriod]
  | some u =>
    cases serviceName with
    | none =>
      simp only [build_some_none, Conn.Query, hup, p1, sqlResolve, Filter.resolve]
      simp only [List.get?, Nat.add_one_sub_one]
      congr 2
      apply List.filter_congr
      intro s _
      rw [Bool.eq_iff_iff, hrow]
      simp [selectedForPeriod]
    | some n =>
      simp only [build_some_some, Conn.Query, hup, p3, sqlResolve, Filter.resolve]
      simp only [List.get?, Nat.add_one_sub_one]
      congr 2
      apply List.filter_congr
      intro s _
      rw [Bool.eq_iff_iff, hrow]
      simp [selectedForPeriod]

theorem NewSubscriptionsRepository_period :
    NewSubscriptionsRepository.GetSubscriptionsForPeriod
      = SubscriptionsRepository.GetSubscriptionsForPeriod := rfl

theorem SumCost_database (conn : Conn) (periodStart periodEnd : Time)
    (userID : Option UUID) (serviceName : Option String) (hup : conn.down = none) :
    SumCost NewSubscriptionsRepository periodStart periodEnd userID serviceName conn
      = ((wrap64 (specTotal periodStart periodEnd (conn.rows.filter (fun s =>
          decide (selectedForPeriod periodStart periodEnd userID serviceName s)))), none),
        conn) := by
  apply SumCost_ok NewSubscriptionsRepository periodStart periodEnd userID serviceName conn conn
  rw [NewSubscriptionsRepository_period]
  exact GetSubscriptionsForPeriod_rows conn periodStart periodEnd userID serviceName hup

open SubscriptionsRepository in
/-- C6: `GetSubscriptionsForPeriod` selects exactly the stored subscriptions `s` with
`s.startDate <= periodEnd` and (`s.endDate` absent or `s.endDate >= periodStart`), and with
`s.userID = userID` and `s.serviceName = serviceName` when those filters are supplied. For
each of the four combinations of filters the statement text is the period query followed by
exactly the conjuncts of the filters supplied, `$1` is `periodEnd`, `$2` is `periodStart`, and
the placeholder of each filter carries the position of its own value in the argument list.
With two stored subscriptions that differ only in `userID`, `SumCost` filtered by the first
`userID` returns what it returns on a store that holds the first subscription alone. -/
theorem C6_period_query_selects :
    (∀ periodStart periodEnd : Time,
      GetSubscriptionsForPeriod.build periodStart periodEnd none none
        = (GetSubscriptionsForPeriod.text, [Arg.time periodEnd, Arg.time periodStart])) ∧
    (∀ (periodStart periodEnd : Time) (u : UUID),
      GetSubscriptionsForPeriod.build periodStart periodEnd (some u) none
        = (GetSubscriptionsForPeriod.text ++ " AND user_id = $3",
          [Arg.time periodEnd, Arg.time periodStart, Arg.uuid u])) ∧
    (∀ (periodStart periodEnd : Time) (n : String),
      GetSubscriptionsForPeriod.build periodStart periodEnd none (some n)
        = (GetSubscriptionsForPeriod.text ++ " AND service_name = $3",
          [Arg.time periodEnd, Arg.time periodStart, Arg.text n])) ∧
    (∀ (periodStart periodEnd : Time) (u : UUID) (n : String),
      GetSubscriptionsForPeriod.build periodStart periodEnd (some u) (some n)
        = (GetSubscriptionsForPeriod.text ++ " AND user_id = $3" ++ " AND service_name = $4",
          [Arg.time periodEnd, Arg.time periodStart, Arg.uuid u, Arg.text n])) ∧
    (∀ (conn : Conn) (periodStart periodEnd : Time) (userID : Option UUID)
        (serviceName : Option String), conn.down = none →
      GetSubscriptionsForPeriod periodStart periodEnd userID serviceName conn
        = ((conn.rows.filter (fun s =>
            decide (selectedForPeriod periodStart periodEnd userID serviceName s)), none),
          conn)) ∧
    (∀ (periodStart periodEnd : Time) (s1 : Subscription) (u2 : UUID), u2 ≠ s1.UserID →
      (SumCost NewSubscriptionsRepository periodStart periodEnd (some s1.UserID) none
          (connOf [s1, { s1 with UserID := u2 }])).1
        = (SumCost NewSubscriptionsRepository periodStart periodEnd none none (connOf [s1])).1) := by
  refine ⟨build_none_none, build_some_none, build_none_some, build_some_some,
    fun conn ps pe u n h => GetSubscriptionsForPeriod_rows conn ps pe u n h, ?_⟩
  intro periodStart periodEnd s1 u2 hne
  rw [SumCost_database (connOf [s1, { s1 with UserID := u2 }]) periodStart periodEnd
      (some s1.UserID) none rfl,
    SumCost_database (connOf [s1]) periodStart periodEnd none none rfl]
  have hlist : (connOf [s1, { s1 with UserID := u2 }]).rows.filter (fun s =>
        decide (selectedForPeriod periodStart periodEnd (some s1.UserID) none s))
      = (connOf [s1]).rows.filter (fun s =>
        decide (selectedForPeriod periodStart periodEnd none none s)) := by
    simp only [connOf, List.filter_cons, List.filter_nil]
    have hs2 : ¬ selectedForPeriod periodStart periodEnd (some s1.UserID) none
        { s1 with UserID := u2 } := by
      intro hsel
      exact hne (hsel.2.2.1 s1.UserID rfl)
    have hs1 : selectedForPeriod periodStart periodEnd (some s1.UserID) none s1
        ↔ selectedForPeriod periodStart periodEnd none none s1 := by
      simp [selectedForPeriod]
    simp only [hs2, decide_False, Bool.false_eq_true, if_false, hs1]
  rw [hlist]

/-- C6 at a concrete input: two subscriptions of price 100 and the same active range, owned
by two users; filtering by the first user over 2025-01..2025-03 totals 300. -/
theorem C6_period_query_selects_witness :
    (SumCost NewSubscriptionsRepository (ym 2025 1) (ym 2025 3)
        (some (mkSub 100 (ym 2024 6) none).UserID) none
        (connOf [mkSub 100 (ym 2024 6) none,
          { mkSub 100 (ym 2024 6) none with UserID := ⟨2⟩ }])).1
      = (SumCost NewSubscriptionsRepository (ym 2025 1) (ym 2025 3) none none
        (connOf [mkSub 100 (ym 2024 6) none])).1 ∧
    (SumCost NewSubscriptionsRepository (ym 2025 1) (ym 2025 3) none none
        (connOf [mkSub 100 (ym 2024 6) none])).1 = (300, none) := by
  refine ⟨C6_period_query_selects.2.2.2.2.2 (ym 2025 1) (ym 2025 3) (mkSub 100 (ym 2024 6) none)
    ⟨2⟩ (by decide), ?_⟩
  rw [SumCost_database (connOf [mkSub 100 (ym 2024 6) none]) (ym 2025 1) (ym 2025 3)
    none none rfl]
  decide

/-! ## C10: partial update -/

set_option maxRecDepth 10000 in
/-- C10 (the code departs from the claim): the update path never applies the `userID` of a
patch. `Update` gives the same result whatever `UserID` the request carries; and on a store
that holds one record of user 1, the request that sets `userID` to user 2 is answered with
status 200 `updated`, while the record that is persisted still belongs to user 1 (only
`updated_at` has changed). -/
theorem C10_update_ignores_userID :
    (∀ (σ : Type) (repo : ISubscriptionsRepository σ) (id : Int) (req : UpdateSubscriptionDTO)
        (st : σ),
      SubscriptionsHandler.Update repo id req st
        = SubscriptionsHandler.Update repo id { req with UserID := none } st) ∧
    (mkSub 100 (ym 2025 1) none).UserID = ⟨1⟩ ∧
    SubscriptionsHandler.Update NewSubscriptionsRepository 1 (patchUserID ⟨2⟩)
        (connOf [mkSub 100 (ym 2025 1) none])
      = ({ status := 200, key := "message", value := "updated" },
        connOf [{ mkSub 100 (ym 2025 1) none with UpdatedAt := ym 2026 1 }]) ∧
    ({ mkSub 100 (ym 2025 1) none with UpdatedAt := ym 2026 1 } : Subscription).UserID ≠ ⟨2⟩ := by
  refine ⟨fun σ repo id req st => rfl, rfl, ?_, by decide⟩
  decide

/-! ## C11: the clamp on well-formed input -/

theorem SumCost.months_clamp (periodStart periodEnd : Time) (sub : Subscription) :
    SumCost.months periodStart periodEnd sub
      = if SumCost.monthsBeforeClamp periodStart periodEnd sub < 0 then 0
        else SumCost.monthsBeforeClamp periodStart periodEnd sub := rfl

theorem SumCost.monthsBeforeClamp_eq (periodStart periodEnd : Time) (sub : Subscription) :
    SumCost.monthsBeforeClamp periodStart periodEnd sub = specMonths periodStart periodEnd sub := by
  have hE : (match sub.EndDate with
      | some e => if e.Before periodEnd then e else periodEnd
      | none => periodEnd) = effectiveEnd periodEnd sub := by
    unfold effectiveEnd
    cases sub.EndDate with
    | none => simp
    | some e => simpa using effEnd_eq_min periodEnd e
  have hS : (if sub.StartDate.Before periodStart then periodStart else sub.StartDate)
      = effectiveStart periodStart sub := effStart_eq_max periodStart sub.StartDate
  unfold SumCost.monthsBeforeClamp
  simp only [hE, hS, monthsBetweenInclusive_Date]
  unfold specMonths
  ring

theorem ncard_periodMonths (periodStart periodEnd : Time)
    (hps : periodStart.IsCalendarMonth) (hpe : periodEnd.IsCalendarMonth) :
    ((periodMonths periodStart periodEnd).ncard : Int)
      = max 0 (periodEnd.monthIndex - periodStart.monthIndex + 1) := by
  have hset : periodMonths periodStart periodEnd
      = {m : Time | m.IsCalendarMonth ∧ periodStart.monthIndex ≤ m.monthIndex ∧
          m.monthIndex ≤ periodEnd.monthIndex} := by
    ext m
    simp only [periodMonths, Set.mem_setOf_eq]
    constructor
    · rintro ⟨hm, h1, h2⟩
      exact ⟨hm, (Time.calendar_le_iff hps hm).1 h1, (Time.calendar_le_iff hm hpe).1 h2⟩
    · rintro ⟨hm, h1, h2⟩
      exact ⟨hm, (Time.calendar_le_iff hps hm).2 h1, (Time.calendar_le_iff hm hpe).2 h2⟩
  rw [hset, ncard_months_between]

theorem SumCost.monthsBeforeClamp_bounds (periodStart periodEnd : Time) (s : Subscription)
    (hps : periodStart.IsCalendarMonth) (hpe : periodEnd.IsCalendarMonth)
    (hle : periodStart ≤ periodEnd) (hs : s.StartDate.IsCalendarMonth)
    (he : ∀ e, s.EndDate = some e → e.IsCalendarMonth ∧ s.StartDate ≤ e)
    (hov : overlapsPeriod periodStart periodEnd s) :
    1 ≤ SumCost.monthsBeforeClamp periodStart periodEnd s ∧
      SumCost.monthsBeforeClamp periodStart periodEnd s
        ≤ periodEnd.monthIndex - periodStart.monthIndex + 1 := by
  have hd : (s.EndDate.getD periodEnd).IsCalendarMonth := by
    cases hE : s.EndDate with
    | none => simpa using hpe
    | some e => simpa using (he e hE).1
  have h1 : s.StartDate.monthIndex ≤ periodEnd.monthIndex := (Time.calendar_le_iff hs hpe).1 hov.1
  have h2 : periodStart.monthIndex ≤ periodEnd.monthIndex := (Time.calendar_le_iff hps hpe).1 hle
  have h3 : s.StartDate.monthIndex ≤ (s.EndDate.getD periodEnd).monthIndex := by
    cases hE : s.EndDate with
    | none => simpa using h1
    | some e => simpa using (Time.calendar_le_iff hs (he e hE).1).1 (he e hE).2
  have h4 : periodStart.monthIndex ≤ (s.EndDate.getD periodEnd).monthIndex := by
    cases hE : s.EndDate with
    | none => simpa using h2
    | some e => simpa using (Time.calendar_le_iff hps (he e hE).1).1 (hov.2 e hE)
  rw [SumCost.monthsBeforeClamp_eq, specMonths_eq_index]
  unfold effectiveStart effectiveEnd
  rw [Time.monthIndex_max hs hps, Time.monthIndex_min hd hpe]
  have hlo := le_max_right s.StartDate.monthIndex periodStart.monthIndex
  have hhi := min_le_right (s.EndDate.getD periodEnd).monthIndex periodEnd.monthIndex
  have hmid : max s.StartDate.monthIndex periodStart.monthIndex
      ≤ min (s.EndDate.getD periodEnd).monthIndex periodEnd.monthIndex :=
    max_le (le_min h3 h1) (le_min h4 h2)
  constructor <;> omega

/-- C11: for first-of-month `periodStart <= periodEnd` and a subscription with first-of-month
dates whose end date, when present, is not before its start date, and which satisfies the
overlap predicate of the store (`startDate <= periodEnd` and the end date absent or
`endDate >= periodStart`), the month count computed in `SumCost` is at least 1 before the
clamp, so `months < 0` does not hold and the clamp leaves the count unchanged; the count is
at most the number of calendar months of the period; and a subscription of non-negative price
contributes at least its price. The same holds for every such row that
`GetSubscriptionsForPeriod` fetches, whatever the filters. -/
theorem C11_clamp_unreachable (periodStart periodEnd : Time) (s : Subscription)
    (hps : periodStart.IsCalendarMonth) (hpe : periodEnd.IsCalendarMonth)
    (hle : periodStart ≤ periodEnd) (hs : s.StartDate.IsCalendarMonth)
    (he : ∀ e, s.EndDate = some e → e.IsCalendarMonth ∧ s.StartDate ≤ e) :
    (overlapsPeriod periodStart periodEnd s →
      ¬ (SumCost.monthsBeforeClamp periodStart periodEnd s < 0) ∧
      SumCost.months periodStart periodEnd s
        = SumCost.monthsBeforeClamp periodStart periodEnd s ∧
      1 ≤ SumCost.months periodStart periodEnd s ∧
      SumCost.months periodStart periodEnd s
        ≤ ((periodMonths periodStart periodEnd).ncard : Int) ∧
      (0 ≤ s.Price → s.Price ≤ s.Price * SumCost.months periodStart periodEnd s)) ∧
    (∀ (conn : Conn) (userID : Option UUID) (serviceName : Option String), conn.down = none →
      s ∈ (SubscriptionsRepository.GetSubscriptionsForPeriod periodStart periodEnd userID
        serviceName conn).1.1 →
      overlapsPeriod periodStart periodEnd s ∧ 1 ≤ SumCost.months periodStart periodEnd s) := by
  have main : overlapsPeriod periodStart periodEnd s →
      ¬ (SumCost.monthsBeforeClamp periodStart periodEnd s < 0) ∧
      SumCost.months periodStart periodEnd s
        = SumCost.monthsBeforeClamp periodStart periodEnd s ∧
      1 ≤ SumCost.months periodStart periodEnd s ∧
      SumCost.months periodStart periodEnd s
        ≤ ((periodMonths periodStart periodEnd).ncard : Int) ∧
      (0 ≤ s.Price → s.Price ≤ s.Price * SumCost.months periodStart periodEnd s) := by
    intro hov
    have hb := SumCost.monthsBeforeClamp_bounds periodStart periodEnd s hps hpe hle hs he hov
    have hneg : ¬ (SumCost.monthsBeforeClamp periodStart periodEnd s < 0) := by omega
    have heq : SumCost.months periodStart periodEnd s
        = SumCost.monthsBeforeClamp periodStart periodEnd s := by
      rw [SumCost.months_clamp, if_neg hneg]
    refine ⟨hneg, heq, by omega, ?_, ?_⟩
    · rw [ncard_periodMonths periodStart periodEnd hps hpe, heq]
      exact le_trans hb.2 (le_max_right _ _)
    · intro hp
      rw [heq]
      nlinarith [hb.1]
  refine ⟨main, ?_⟩
  intro conn userID serviceName hup hmem
  rw [GetSubscriptionsForPeriod_rows conn periodStart periodEnd userID serviceName hup] at hmem
  simp only [List.mem_filter, decide_eq_true_eq] at hmem
  have hov : overlapsPeriod periodStart periodEnd s := ⟨hmem.2.1, hmem.2.2.1⟩
  exact ⟨hov, (main hov).2.2.1⟩

/-- C11 at a concrete input: a subscription 2024-06..2025-12 within 2025-01..2025-03 is
counted for three months, the whole period, and the clamp is not taken. -/
theorem C11_clamp_unreachable_witness :
    SumCost.monthsBeforeClamp (ym 2025 1) (ym 2025 3)
      (mkSub 100 (ym 2024 6) (some (ym 2025 12))) = 3 ∧
    1 ≤ SumCost.months (ym 2025 1) (ym 2025 3) (mkSub 100 (ym 2024 6) (some (ym 2025 12))) ∧
    SumCost.months (ym 2025 1) (ym 2025 3) (mkSub 100 (ym 2024 6) (some (ym 2025 12)))
      ≤ ((periodMonths (ym 2025 1) (ym 2025 3)).ncard : Int) := by
  have h := (C11_clamp_unreachable (ym 2025 1) (ym 2025 3)
    (mkSub 100 (ym 2024 6) (some (ym 2025 12))) (by decide) (by decide) (by decide) (by decide)
    (by
      intro e he
      have : e = ym 2025 12 := by
        simp only [mkSub, Option.some.injEq] at he
        exact he.symm
      subst this
      exact ⟨by decide, by decide⟩)).1
    ⟨by decide, by
      intro e he
      have : e = ym 2025 12 := by
        simp only [mkSub, Option.some.injEq] at he
        exact he.symm
      subst this
      decide⟩
  exact ⟨by decide, h.2.2.1, h.2.2.2.1⟩

end Subscriptions
